import Mathlib

/-!
Shallow embedding of the solar-plant telemetry ingestion engine
(weather/meter upload validation, correlation and enrichment, and batch
submission) together with proofs of the specification claims.

JavaScript numbers are modelled by `NumV` (a finite rational, NaN, or a
signed infinity); spreadsheet cell values by `JSV` (undefined, a string
together with its numeric interpretation, or a plain number).  Rows are
ordered string-keyed association lists, mirroring JS object key order.
-/

namespace SolarIngest

/-! Basic character and string utilities shared by the embedded services. -/

def digitVal (c : Char) : Nat := c.toNat - 48

def digitsToNat (l : List Char) : Nat := l.foldl (fun n c => n * 10 + digitVal c) 0

/-- Embeds `String(n).padStart(2, '0')` for a natural number `n`. -/
def pad2 (n : Nat) : String :=
  let s := toString n
  if s.length < 2 then "0" ++ s else s

/-- Embeds `String(v)` for an integral-or-rational JS number. -/
def ratToStr (q : ℚ) : String :=
  if q.den = 1 then toString q.num else toString q

/-- Embeds `s.split(sep)` for a single-character separator. -/
def splitCharAux (sep : Char) : List Char → List Char → List String
  | [], acc => [String.mk acc.reverse]
  | c :: rest, acc =>
    if c = sep then String.mk acc.reverse :: splitCharAux sep rest []
    else splitCharAux sep rest (c :: acc)

def splitChar (sep : Char) (s : String) : List String := splitCharAux sep s.data []

/-- JS indexing `arr[i]`, where a missing element denotes `undefined`
(which stringifies to `"undefined"` in a template literal). -/
def jsIndex (ps : List String) (i : Nat) : String :=
  match ps.get? i with
  | some s => s
  | none => "undefined"

def startsSeq : List Char → List Char → Bool
  | [], _ => true
  | _ :: _, [] => false
  | p :: ps, c :: cs => p = c && startsSeq ps cs

def containsSeq (pat : List Char) : List Char → Bool
  | [] => startsSeq pat []
  | c :: rest => startsSeq pat (c :: rest) || containsSeq pat rest

def lowerData (s : String) : List Char := s.data.map Char.toLower

/-- Case-insensitive anchored prefix test; `pat` is given lower-case. -/
def ciStarts (pat : List Char) (l : List Char) : Bool := startsSeq pat (l.map Char.toLower)

/-- JS `\s` character class (restricted to the ASCII whitespace that occurs here). -/
def jsSpace (c : Char) : Bool :=
  c = ' ' || c = '\t' || c = '\n' || c = '\r' || c.toNat = 11 || c.toNat = 12

/-- JS `\w` character class. -/
def isWordChar (c : Char) : Bool := c.isAlphanum || c = '_'

def wsRun : List Char → Nat
  | [] => 0
  | c :: rest => if jsSpace c then wsRun rest + 1 else 0

/-- Embeds JS `s.trim()`: strip whitespace from both ends. -/
def jsTrim (s : String) : String :=
  String.mk (((s.data.dropWhile jsSpace).reverse.dropWhile jsSpace).reverse)

def MONTHS : List String :=
  ["Jan", "Feb", "Mar", "Apr", "May", "Jun", "Jul", "Aug", "Sep", "Oct", "Nov", "Dec"]

/-! The JS value model. -/

/-- A JavaScript number: finite (idealised as a rational), NaN, or an infinity. -/
inductive NumV where
  | fin (q : ℚ)
  | nan
  | posInf
  | negInf
deriving DecidableEq, Repr

/-- A spreadsheet cell / JS object field value.  `str s n` carries both the
string view `String(v) = s` and the numeric view `Number(v) = n`, so the
embedding never needs a full JS string-to-number parser. -/
inductive JSV where
  | undef
  | str (s : String) (n : NumV)
  | num (q : ℚ)
deriving DecidableEq, Repr

/-- Crude string-to-number used only when the embedding itself has to
fabricate the numeric view of a string it constructs (digit strings map to
their value, everything else to NaN); never consulted by the validators for
the date/time strings it is attached to. -/
def jsNumOfString (s : String) : NumV :=
  if s ≠ "" && s.data.all Char.isDigit then .fin (digitsToNat s.data) else .nan

def JSV.toNumV : JSV → NumV
  | .undef => .nan
  | .str _ n => n
  | .num q => .fin q

def JSV.toStr : JSV → String
  | .undef => "undefined"
  | .str s _ => s
  | .num q => ratToStr q

def JSV.truthy : JSV → Bool
  | .undef => false
  | .str s _ => s ≠ ""
  | .num q => q ≠ 0

/-- JS `a ?? b` (null and undefined are conflated into `undef`). -/
def jsOr (a b : JSV) : JSV :=
  match a with
  | .undef => b
  | v => v

/-- A row mapping: ordered string-keyed fields, as produced by the
spreadsheet parser or the HTTP body. -/
abbrev Row := List (String × JSV)

/-- JS property read `row[k]`: first binding wins, missing keys are undefined. -/
def jsGet (r : Row) (k : String) : JSV :=
  match r.find? (fun p => p.1 == k) with
  | some p => p.2
  | none => (.undef)

/-- JS object spread-set `{...r, k: v}`: overwrite in place or append. -/
def setVal : Row → String → JSV → Row
  | [], k, v => [(k, v)]
  | p :: rest, k, v => if p.1 = k then (k, v) :: rest else p :: setVal rest k v

def setVals (r : Row) (kvs : List (String × JSV)) : Row :=
  kvs.foldl (fun acc p => setVal acc p.1 p.2) r

/-! Meter upload validation service (`meter-upload.controller.ts`). -/

/-- Embeds `isValidDDMMYYYY`: `/^\d{2}-\d{2}-\d{4}$/` on the trimmed string. -/
def isValidDDMMYYYY (s : String) : Bool :=
  match (jsTrim s).data with
  | [a, b, '-', c, d, '-', e, f, g, h] =>
    a.isDigit && b.isDigit && c.isDigit && d.isDigit &&
    e.isDigit && f.isDigit && g.isDigit && h.isDigit
  | _ => false

/-- Embeds the meter `isValidHHMM`: `/^(\d{2}):(\d{2})$/` with `hh ≤ 23`, `mm ≤ 59`. -/
def isValidHHMM (s : String) : Bool :=
  match (jsTrim s).data with
  | [a, b, ':', c, d] =>
    a.isDigit && b.isDigit && c.isDigit && d.isDigit &&
    digitsToNat [a, b] ≤ 23 && digitsToNat [c, d] ≤ 59
  | _ => false

/-- Embeds the meter `normalizeHHMM`: null for empty input; `HH:MM:SS` and
`H:MM`/`HH:MM` collapse to a zero-padded `HH:MM` (hours via
`pad2(Number(m[1]))`); anything else passes through trimmed. -/
def normalizeHHMM (v : JSV) : Option String :=
  match v with
  | .undef => none
  | .str "" _ => none
  | v =>
    let s := jsTrim v.toStr
    match s.data with
    | [a, ':', c, d] =>
      if a.isDigit && c.isDigit && d.isDigit then
        some (pad2 (digitsToNat [a]) ++ ":" ++ String.mk [c, d])
      else some s
    | [a, b, ':', c, d] =>
      if a.isDigit && b.isDigit && c.isDigit && d.isDigit then
        some (pad2 (digitsToNat [a, b]) ++ ":" ++ String.mk [c, d])
      else some s
    | [a, ':', c, d, ':', e, f] =>
      if a.isDigit && c.isDigit && d.isDigit && e.isDigit && f.isDigit then
        some (pad2 (digitsToNat [a]) ++ ":" ++ String.mk [c, d])
      else some s
    | [a, b, ':', c, d, ':', e, f] =>
      if a.isDigit && b.isDigit && c.isDigit && d.isDigit && e.isDigit && f.isDigit then
        some (pad2 (digitsToNat [a, b]) ++ ":" ++ String.mk [c, d])
      else some s
    | _ => some s

def normalizeHHMMs (s : String) : Option String := normalizeHHMM (.str s (jsNumOfString s))

/-- Embeds `Number(s)` on the digit strings that reach it at the guarded
call sites of this module (a non-digit string denotes NaN). -/
def jsToNumDigits (s : String) : Option Nat :=
  if s ≠ "" && s.data.all Char.isDigit then some (digitsToNat s.data) else none

/-- Embeds `s.slice(-2)`. -/
def sliceLast2 (s : String) : String := String.mk (s.data.drop (s.data.length - 2))

/-- Embeds `ddmmyyyyToISO`. -/
def ddmmyyyyToISO (s : String) : String :=
  let ps := splitChar '-' s
  jsIndex ps 2 ++ "-" ++ jsIndex ps 1 ++ "-" ++ jsIndex ps 0

/-- Embeds `ddmmyyyyToDDMMMYY`. -/
def ddmmyyyyToDDMMMYY (s : String) : String :=
  let ps := splitChar '-' s
  let dd := jsIndex ps 0
  let mm := jsIndex ps 1
  let yyyy := jsIndex ps 2
  match jsToNumDigits mm with
  | none => s
  | some mi =>
    if mi < 1 || 12 < mi then s
    else dd ++ "-" ++ ((MONTHS.get? (mi - 1)).getD "") ++ "-" ++ sliceLast2 yyyy

/-- Embeds `timeToMinutes` (only ever applied to valid `HH:MM` strings). -/
def timeToMinutes (s : String) : Nat :=
  let ps := splitChar ':' s
  digitsToNat (jsIndex ps 0).data * 60 + digitsToNat (jsIndex ps 1).data

/-- Embeds `minutesToHHMM` (`%` is JS truncated remainder, i.e. `Int.tmod`). -/
def minutesToHHMM (total : ℤ) : String :=
  let t := ((total.tmod 1440) + 1440).tmod 1440
  pad2 (t.toNat / 60) ++ ":" ++ pad2 (t.toNat % 60)

/-- Embeds `diffHHMM`. -/
def diffHHMM (start stop : String) : String :=
  let s : ℤ := timeToMinutes start
  let e : ℤ := timeToMinutes stop
  minutesToHHMM (if s ≤ e then e - s else 1440 - s + e)

/-- Embeds `toNumberOrNull`: null for empty, NaN for non-finite, else the number. -/
def toNumberOrNull (v : JSV) : Option NumV :=
  match v with
  | .undef => none
  | .str "" _ => none
  | .str _ n => some (match n with | .fin q => .fin q | _ => .nan)
  | .num q => some (.fin q)

/-- Embeds `/export|import/i.test(k)`. -/
def testExportImport (k : String) : Bool :=
  containsSeq "export".data (lowerData k) || containsSeq "import".data (lowerData k)

/-- Embeds `/gss/i.test(id)`. -/
def idHasGss (id : String) : Bool := containsSeq "gss".data (lowerData id)

/-! The `computePairs` regular expressions
`^Type\s*(.*?)\s*(Initial|Start)\b` (resp. `(Final|End)`) with the `i`
flag, transliterated as a backtracking matcher over the key characters. -/

/-- One keyword alternative of the pair-matching regex, with the trailing
word boundary `\b`. -/
def kwOk (pat : List Char) (tail : List Char) : Bool :=
  ciStarts pat tail &&
    (match tail.drop pat.length with
     | [] => true
     | c :: _ => !isWordChar c)

/-- The `\s*(Kw1|Kw2)\b` tail of the regex, tried at every position the
backtracking `\s*` can reach. -/
def innerScan (p1 p2 : List Char) : List Char → Bool
  | [] => kwOk p1 [] || kwOk p2 []
  | c :: rest =>
    kwOk p1 (c :: rest) || kwOk p2 (c :: rest) || (jsSpace c && innerScan p1 p2 rest)

/-- The lazy group `(.*?)`: grown one character at a time (never across a
newline, which `.` cannot match), returning the shortest group for which
the regex tail succeeds. -/
def groupScan (p1 p2 : List Char) : List Char → List Char → Option (List Char)
  | acc, [] => if innerScan p1 p2 [] then some acc.reverse else none
  | acc, c :: rest =>
    if innerScan p1 p2 (c :: rest) then some acc.reverse
    else if c = '\n' then none
    else groupScan p1 p2 (c :: acc) rest

/-- Embeds `k.match(/^Type\s*(.*?)\s*(Kw1|Kw2)\b/i)`, returning capture
group 1.  The leading greedy `\s*` is taken maximally, which is complete
because the keywords begin with letters. -/
def matchPairKey (ty p1 p2 : List Char) (k : String) : Option String :=
  let l := k.data
  if ciStarts ty l then
    let rest := l.drop ty.length
    match groupScan p1 p2 [] (rest.drop (wsRun rest)) with
    | some g => some (String.mk g)
    | none => none
  else none

/-- Embeds `(m[1] || '').trim() || '1'`. -/
def idOfGroup (g : String) : String :=
  let t := jsTrim g
  if t = "" then "1" else t

/-- Embeds the `initials` / `finals` maps: JS `Map.set` keeps first-insert
order and overwrites the value. -/
def insertMap (m : List (String × String)) (id v : String) : List (String × String) :=
  if m.any (fun p => p.1 == id) then m.map (fun p => if p.1 = id then (id, v) else p)
  else m ++ [(id, v)]

def buildPairMaps (ty p1 p2 : List Char) (keys : List String) : List (String × String) :=
  keys.foldl
    (fun m k =>
      match matchPairKey ty p1 p2 k with
      | some g => insertMap m (idOfGroup g) k
      | none => m)
    []

/-- Embeds the pairing loop: each initial with a matching final whose two
readings are present and numeric contributes `final − initial`. -/
def pairTotals (r : Row) (initials finals : List (String × String)) : List (String × ℚ) :=
  initials.filterMap
    (fun p =>
      match finals.find? (fun q => q.1 == p.1) with
      | none => none
      | some q =>
        match toNumberOrNull (jsGet r p.2), toNumberOrNull (jsGet r q.2) with
        | some (.fin ini), some (.fin fv) => some (p.1, fv - ini)
        | _, _ => none)

def rowKeys (r : Row) : List String := r.map (fun p => p.1)

def exportPairs (r : Row) : List (String × ℚ) :=
  pairTotals r
    (buildPairMaps "export".data "initial".data "start".data (rowKeys r))
    (buildPairMaps "export".data "final".data "end".data (rowKeys r))

def importPairs (r : Row) : List (String × ℚ) :=
  pairTotals r
    (buildPairMaps "import".data "initial".data "start".data (rowKeys r))
    (buildPairMaps "import".data "final".data "end".data (rowKeys r))

def rowHasGss (r : Row) : Bool :=
  (exportPairs r).any (fun p => idHasGss p.1) || (importPairs r).any (fun p => idHasGss p.1)

/-- Embeds the `reduce` summation (the source's `isFinite` guard is vacuous
here because pair totals are differences of finite readings). -/
def sumTotals (l : List (String × ℚ)) : ℚ := l.foldl (fun acc p => acc + p.2) 0

def gssExportTotal (r : Row) : ℚ :=
  sumTotals (if rowHasGss r then (exportPairs r).filter (fun p => idHasGss p.1) else exportPairs r)

def gssImportTotal (r : Row) : ℚ :=
  sumTotals (if rowHasGss r then (importPairs r).filter (fun p => idHasGss p.1) else importPairs r)

def netExportAtGss (r : Row) : ℚ := gssExportTotal r - gssImportTotal r

/-! Plant-operation calculator: weather points for one date. -/

/-- A fetched weather document, reduced to the two fields the calculator
reads: `String(x.Time ?? x.time ?? '')` and
`Number(x.POA ?? x.poa ?? x['POA Meter 1'] ?? x['POA_Meter_1'])`. -/
structure WDoc where
  time : String
  poa : NumV
deriving DecidableEq, Repr

structure WPoint where
  time : String
  poa : ℚ
deriving DecidableEq, Repr

/-- Embeds the point normalisation: normalised time truncated to 5 chars,
empty when unparseable. -/
def pointTime (t : String) : String :=
  match normalizeHHMMs t with
  | some u => if u = "" then "" else String.mk (u.data.take 5)
  | none => ""

/-- Embeds the map/filter producing candidate points: valid `HH:MM` time
and finite POA. -/
def filteredPoints (w : List WDoc) : List WPoint :=
  w.filterMap
    (fun d =>
      match d.poa with
      | .fin q => if isValidHHMM (pointTime d.time) then some ⟨pointTime d.time, q⟩ else none
      | _ => none)

/-- Embeds `.sort((a, b) => timeToMinutes(a.time) - timeToMinutes(b.time))`.
JS `Array.prototype.sort` is a stable sort, and a stable sort by a fixed
comparator is unique, so the stable `List.insertionSort` computes it. -/
def sortedPoints (w : List WDoc) : List WPoint :=
  List.insertionSort (fun a b => timeToMinutes a.time ≤ timeToMinutes b.time)
    (filteredPoints w)

/-- Plant Start Time: first point in ascending time order with POA ≥ 10. -/
def plantStartOf (pts : List WPoint) : String :=
  match pts.find? (fun p => decide (10 ≤ p.poa)) with
  | some p => p.time
  | none => "00:00"

/-- Plant Stop Time: last point with 0 < POA < 50, falling back to the last
point with POA > 0, else "00:00". -/
def plantStopOf (pts : List WPoint) : String :=
  match pts.reverse.find? (fun p => decide (0 < p.poa) && decide (p.poa < 50)) with
  | some p => p.time
  | none =>
    match pts.reverse.find? (fun p => decide (0 < p.poa)) with
    | some p => p.time
    | none => "00:00"

/-! Meter row validation rules. -/

/-- Embeds `typeof raw === 'string' ? raw.trim() : String(raw ?? '').trim()`
for the `Date` field. -/
def rowDateStr (r : Row) : String :=
  match jsGet r "Date" with
  | .str s _ => jsTrim s
  | .undef => ""
  | .num q => jsTrim (ratToStr q)

def dateOk (r : Row) : Bool := rowDateStr r ≠ "" && isValidDDMMYYYY (rowDateStr r)

def startTimeUser (r : Row) : Option String :=
  normalizeHHMM (jsOr (jsGet r "Start Time") (jsOr (jsGet r "StartTime") (jsGet r "Start")))

def stopTimeUser (r : Row) : Option String :=
  normalizeHHMM (jsOr (jsGet r "Stop Time") (jsOr (jsGet r "StopTime") (jsGet r "Stop")))

/-- JS truthiness of a possibly-null string. -/
def optTruthy : Option String → Bool
  | none => false
  | some s => s ≠ ""

def hasStartStop (r : Row) : Bool :=
  optTruthy (startTimeUser r) && optTruthy (stopTimeUser r) &&
  isValidHHMM ((startTimeUser r).getD "") && isValidHHMM ((stopTimeUser r).getD "")

def readingKeys (r : Row) : List String := (rowKeys r).filter testExportImport

def hasAnyReading (r : Row) : Bool :=
  (readingKeys r).any
    (fun k =>
      match toNumberOrNull (jsGet r k) with
      | some (.fin _) => true
      | _ => false)

def readingDefects (r : Row) : List String :=
  (readingKeys r).foldr
    (fun k acc =>
      (match toNumberOrNull (jsGet r k) with
       | none => []
       | some (.fin q) => if q < 0 then [k ++ " cannot be negative"] else []
       | some _ => [k ++ " must be numeric"]) ++ acc)
    []

def startFmtDefect (r : Row) : List String :=
  match startTimeUser r with
  | some s => if s ≠ "" && !isValidHHMM s then ["Start Time must be HH:MM (24-hour)"] else []
  | none => []

def stopFmtDefect (r : Row) : List String :=
  match stopTimeUser r with
  | some s => if s ≠ "" && !isValidHHMM s then ["Stop Time must be HH:MM (24-hour)"] else []
  | none => []

def eitherOrMsg : String := "Each date must have either Start/Stop times OR Export/Import readings"

/-- All defects of one meter row, in the order the source pushes them;
`seen` is the duplicate-date set accumulated over earlier rows. -/
def meterRowDefects (seen : List String) (r : Row) : List String :=
  (if dateOk r then
    (if seen.contains (rowDateStr r) then ["No duplicate dates allowed"] else [])
   else ["Date must be in format DD-MM-YYYY (e.g., 01-12-2024)"]) ++
  startFmtDefect r ++ stopFmtDefect r ++
  readingDefects r ++
  (if !hasStartStop r && !hasAnyReading r then [eitherOrMsg] else [])

/-! Meter row enrichment. -/

def plantStartRow (wIdx : String → List WDoc) (r : Row) : String :=
  if dateOk r then plantStartOf (sortedPoints (wIdx (rowDateStr r))) else "00:00"

def plantStopRow (wIdx : String → List WDoc) (r : Row) : String :=
  if dateOk r then plantStopOf (sortedPoints (wIdx (rowDateStr r))) else "00:00"

def totalRow (wIdx : String → List WDoc) (r : Row) : String :=
  if isValidHHMM (plantStartRow wIdx r) && isValidHHMM (plantStopRow wIdx r) then
    diffHHMM (plantStartRow wIdx r) (plantStopRow wIdx r)
  else "00:00"

/-- Embeds the per-pair computed fields `"Type Total id"` (the source
applies `.trim()` to the label). -/
def computedFields (r : Row) : List (String × JSV) :=
  (exportPairs r).map (fun p => (jsTrim ("Export Total " ++ p.1), JSV.num p.2)) ++
  (importPairs r).map (fun p => (jsTrim ("Import Total " ++ p.1), JSV.num p.2))

/-- The auto-calculated fields, in the order the source spreads them onto
the row. -/
def enrichFields (wIdx : String → List WDoc) (r : Row) : List (String × JSV) :=
  [("Plant Start Time", JSV.str (plantStartRow wIdx r) .nan),
   ("Plant Stop Time", JSV.str (plantStopRow wIdx r) .nan),
   ("Total", JSV.str (totalRow wIdx r) .nan)] ++
  computedFields r ++
  [("GSS Export Total", JSV.num (gssExportTotal r)),
   ("GSS Import Total", JSV.num (gssImportTotal r)),
   ("Net Export @GSS", JSV.num (netExportAtGss r))]

/-- Embeds the enriched row returned for every meter row: the original
columns spread together with the auto-calculated fields. -/
def enrichRow (wIdx : String → List WDoc) (r : Row) : Row :=
  setVals r (enrichFields wIdx r)

structure ValidationResult where
  rows : List Row
  errors : List (Nat × List String)
  isValid : Bool
deriving DecidableEq, Repr

/-- The row-processing loop of `MeterValidateService.validateRows`:
`idx` is the 0-based index (`rowNumber = idx + 2`), `seen` the
duplicate-date set. -/
def processMeter (wIdx : String → List WDoc) :
    List Row → Nat → List String → List Row × List (Nat × List String)
  | [], _, _ => ([], [])
  | r :: rest, idx, seen =>
    let defects := meterRowDefects seen r
    let seen2 := if dateOk r then rowDateStr r :: seen else seen
    let res := processMeter wIdx rest (idx + 1) seen2
    (enrichRow wIdx r :: res.1,
     (if defects.isEmpty then [] else [(idx + 2, defects)]) ++ res.2)

/-- Embeds `MeterValidateService.validateRows`, with the per-date weather
index (built once per batch from the store) abstracted as `wIdx`. -/
def meterValidate (wIdx : String → List WDoc) (rows : List Row) : ValidationResult :=
  let res := processMeter wIdx rows 0 []
  ⟨res.1, res.2, res.2.isEmpty⟩

/-! Weather upload validation service (`weather-upload.controller.ts`). -/

/-- Embeds the month-name normalisation
`m.slice(0,1).toUpperCase() + m.slice(1).toLowerCase()`. -/
def capitalizeMon (l : List Char) : List Char :=
  match l with
  | [] => []
  | c :: rest => c.toUpper :: rest.map Char.toLower

/-- Embeds `isValidDDMMMYY`: `/^(\d{2})-([A-Za-z]{3})-(\d{2})$/` on the
trimmed string, day 1–31, recognised month, 2-digit year. -/
def isValidDDMMMYY (s : String) : Bool :=
  if s = "" then false else
  match (jsTrim s).data with
  | [a, b, '-', c, d, e, '-', f, g] =>
    a.isDigit && b.isDigit && c.isAlpha && d.isAlpha && e.isAlpha && f.isDigit && g.isDigit &&
    1 ≤ digitsToNat [a, b] && digitsToNat [a, b] ≤ 31 &&
    MONTHS.contains (String.mk (capitalizeMon [c, d, e])) &&
    digitsToNat [f, g] ≤ 99
  | _ => false

/-- Embeds `normalizeDDMMMYY`: canonicalise the month capitalisation,
pass everything else through unchanged. -/
def normalizeDDMMMYY (s : String) : String :=
  if s = "" then s else
  match (jsTrim s).data with
  | [a, b, '-', c, d, e, '-', f, g] =>
    if a.isDigit && b.isDigit && c.isAlpha && d.isAlpha && e.isAlpha && f.isDigit && g.isDigit then
      String.mk ([a, b] ++ '-' :: capitalizeMon [c, d, e] ++ '-' :: [f, g])
    else s
  | _ => s

/-- Embeds the weather `isValidHHMM`: `/^([01]\d|2[0-3]):[0-5]\d$/` on the
trimmed string. -/
def isValidHHMMw (s : String) : Bool :=
  if s = "" then false else
  match (jsTrim s).data with
  | [a, b, ':', c, d] =>
    ((a = '0' || a = '1') && b.isDigit || a = '2' && (b = '0' || b = '1' || b = '2' || b = '3')) &&
    (c = '0' || c = '1' || c = '2' || c = '3' || c = '4' || c = '5') && d.isDigit
  | _ => false

/-- Embeds the weather `normalizeHHMM`: collapse
`^(\d{1,2}):(\d{2})(?::(\d{2}))?$` to `HH:MM` with
`String(Number(m[1])).padStart(2,'0')` hours; otherwise return the trimmed
string. -/
def normalizeHHMMw (s : String) : String :=
  if s = "" then s else
  match (jsTrim s).data with
  | [a, ':', c, d] =>
    if a.isDigit && c.isDigit && d.isDigit then
      pad2 (digitsToNat [a]) ++ ":" ++ String.mk [c, d]
    else jsTrim s
  | [a, b, ':', c, d] =>
    if a.isDigit && b.isDigit && c.isDigit && d.isDigit then
      pad2 (digitsToNat [a, b]) ++ ":" ++ String.mk [c, d]
    else jsTrim s
  | [a, ':', c, d, ':', e, f] =>
    if a.isDigit && c.isDigit && d.isDigit && e.isDigit && f.isDigit then
      pad2 (digitsToNat [a]) ++ ":" ++ String.mk [c, d]
    else jsTrim s
  | [a, b, ':', c, d, ':', e, f] =>
    if a.isDigit && b.isDigit && c.isDigit && d.isDigit && e.isDigit && f.isDigit then
      pad2 (digitsToNat [a, b]) ++ ":" ++ String.mk [c, d]
    else jsTrim s
  | _ => jsTrim s

/-- Embeds `rawDate ? normalizeDDMMMYY(String(rawDate).trim()) : ''` with
`rawDate = row['Date'] ?? row['date'] ?? ''`. -/
def wDateOf (r : Row) : String :=
  let rawDate := jsOr (jsGet r "Date") (jsOr (jsGet r "date") (JSV.str "" (.fin 0)))
  if rawDate.truthy then normalizeDDMMMYY (jsTrim rawDate.toStr) else ""

def wTimeOf (r : Row) : String :=
  let rawTime := jsOr (jsGet r "Time") (jsOr (jsGet r "time") (JSV.str "" (.fin 0)))
  if rawTime.truthy then normalizeHHMMw (jsTrim rawTime.toStr) else ""

/-- The duplicate-tracking key `date + "_" + time`, tracked only for rows
whose date and time are present and valid. -/
def wPairKey (r : Row) : Option String :=
  let d := wDateOf r
  let t := wTimeOf r
  if d ≠ "" && t ≠ "" && isValidDDMMMYY d && isValidHHMMw t then some (d ++ "_" ++ t)
  else none

/-- Embeds the `checkRange` helper. -/
def checkRange (v : JSV) (mn mx : ℚ) (fld : String) (allowZero : Bool) : List String :=
  match v with
  | .undef => []
  | .str "" _ => []
  | v =>
    match v.toNumV with
    | .nan => [fld ++ " must be a number"]
    | .fin q =>
      if !allowZero && q = 0 then [fld ++ " cannot be 0"]
      else if q < mn || mx < q then
        [fld ++ " must be between " ++ ratToStr mn ++ " and " ++ ratToStr mx]
      else []
    | .posInf => [fld ++ " must be between " ++ ratToStr mn ++ " and " ++ ratToStr mx]
    | .negInf => [fld ++ " must be between " ++ ratToStr mn ++ " and " ++ ratToStr mx]

/-- Embeds the dedicated Module Temperature block. -/
def moduleTempDefects (v : JSV) : List String :=
  match v with
  | .undef => []
  | .str "" _ => []
  | v =>
    match v.toNumV with
    | .nan => ["Module Temperature must be a number"]
    | .fin q =>
      if q = 0 then ["Module Temperature cannot be 0"]
      else if q < 0 then ["Module Temperature cannot be negative"]
      else if 100 < q then ["Module Temperature must be ≤ 100°C"]
      else []
    | .posInf => ["Module Temperature must be ≤ 100°C"]
    | .negInf => ["Module Temperature cannot be negative"]

def dupMsg : String := "Duplicate Date & Time combination"

/-- All defects of one weather row, in source push order. -/
def wRowDefects (seen : List String) (r : Row) : List String :=
  let d := wDateOf r
  let t := wTimeOf r
  (if d = "" then ["Missing Date"]
   else if !isValidDDMMMYY d then ["Invalid Date format (expected DD-MMM-YY, e.g., 01-Dec-24)"]
   else []) ++
  (if t = "" then ["Missing Time"]
   else if !isValidHHMMw t then ["Invalid Time format (expected HH:MM 24-hour, e.g., 09:30)"]
   else []) ++
  (match wPairKey r with
   | some k => if seen.contains k then [dupMsg] else []
   | none => []) ++
  checkRange (jsGet r "POA") 0 1500 "POA Pyranometer" true ++
  checkRange (jsGet r "GHI") 0 1500 "GHI Pyranometer" true ++
  checkRange (jsGet r "AlbedoUp") 0 1500 "Albedo Up" true ++
  checkRange (jsGet r "AlbedoDown") 0 1500 "Albedo Down" true ++
  moduleTempDefects (jsGet r "ModuleTemp") ++
  checkRange (jsGet r "AmbientTemp") 0 100 "Ambient Temperature" true ++
  checkRange (jsGet r "WindSpeed") 0 200 "Wind Speed" true ++
  checkRange (jsGet r "Rainfall") 0 500 "Rainfall" true ++
  checkRange (jsGet r "Humidity") 0 100 "Humidity" true

/-- Embeds the returned row
`{...row, Date: date || row['Date'], Time: time || row['Time']}`. -/
def wOutRow (r : Row) : Row :=
  let d := wDateOf r
  let t := wTimeOf r
  setVal
    (setVal r "Date" (if d ≠ "" then JSV.str d (jsNumOfString d) else jsGet r "Date"))
    "Time" (if t ≠ "" then JSV.str t (jsNumOfString t) else jsGet r "Time")

/-- The row-processing loop of `WeatherValidateService.validateRows`. -/
def wProcess : List Row → Nat → List String → List Row × List (Nat × List String)
  | [], _, _ => ([], [])
  | r :: rest, idx, seen =>
    let defects := wRowDefects seen r
    let seen2 :=
      match wPairKey r with
      | some k => if seen.contains k then seen else k :: seen
      | none => seen
    let res := wProcess rest (idx + 1) seen2
    (wOutRow r :: res.1,
     (if defects.isEmpty then [] else [(idx + 2, defects)]) ++ res.2)

/-- Embeds `WeatherValidateService.validateRows`. -/
def weatherValidate (rows : List Row) : ValidationResult :=
  let res := wProcess rows 0 []
  ⟨res.1, res.2, res.2.isEmpty⟩

/-! Date and time normalisers of `WeatherExcelService`. -/

/-- String `padStart(2, '0')` for 1–2 character runs. -/
def padTwo (d : List Char) : List Char := if d.length = 1 then '0' :: d else d

/-- All ways of splitting a leading digit run of length `lo..hi`, longest
first — the backtracking order of a greedy `\d{lo,hi}`. -/
def digitSplit (lo hi : Nat) (l : List Char) : List (List Char × List Char) :=
  let run := (l.takeWhile Char.isDigit).length.min hi
  (List.range (run + 1)).reverse.filterMap
    (fun n => if lo ≤ n then some (l.take n, l.drop n) else none)

/-- Embeds `str.match(/^(\d{1,2})\/([A-Za-z]{3})\/(\d{2,4})$/)`. -/
def matchSlashMonth (l : List Char) : Option (List Char × List Char × List Char) :=
  (digitSplit 1 2 l).findSome?
    (fun p =>
      match p.2 with
      | '/' :: c :: d :: e :: rest2 =>
        if c.isAlpha && d.isAlpha && e.isAlpha then
          match rest2 with
          | '/' :: rest3 =>
            (digitSplit 2 4 rest3).findSome?
              (fun y => if y.2 = [] then some (p.1, [c, d, e], y.1) else none)
          | _ => none
        else none
      | _ => none)

def isSep (c : Char) : Bool := c = '/' || c = '-'

/-- Embeds `str.match(/^(\d{1,2})[\/\-](\d{1,2})[\/\-](\d{2,4})$/)`. -/
def matchNumDate (l : List Char) : Option (List Char × List Char × List Char) :=
  (digitSplit 1 2 l).findSome?
    (fun p =>
      match p.2 with
      | s1 :: rest =>
        if isSep s1 then
          (digitSplit 1 2 rest).findSome?
            (fun q =>
              match q.2 with
              | s2 :: rest2 =>
                if isSep s2 then
                  (digitSplit 2 4 rest2).findSome?
                    (fun y => if y.2 = [] then some (p.1, q.1, y.1) else none)
                else none
              | _ => none)
        else none
      | _ => none)

/-- Embeds `months[monthNum - 1] || 'Jan'` (out-of-range indices give
`undefined`, hence the `'Jan'` fallback). -/
def monthOr (n : Nat) : String :=
  if 1 ≤ n && n ≤ 12 then (MONTHS.get? (n - 1)).getD "Jan" else "Jan"

/-- Embeds `/^\d{2}-[A-Za-z]{3}-\d{2}$/.test(str)`. -/
def isDDMMMYYShape (l : List Char) : Bool :=
  match l with
  | [a, b, '-', c, d, e, '-', f, g] =>
    a.isDigit && b.isDigit && c.isAlpha && d.isAlpha && e.isAlpha && f.isDigit && g.isDigit
  | _ => false

/-- Embeds `WeatherExcelService.normalizeDate`. -/
def normalizeDate (v : JSV) : String :=
  if !v.truthy then "" else
  let str := jsTrim v.toStr
  if isDDMMMYYShape str.data then str
  else
    match matchSlashMonth str.data with
    | some m =>
      String.mk (padTwo m.1 ++ '-' :: capitalizeMon m.2.1) ++ "-" ++ sliceLast2 (String.mk m.2.2)
    | none =>
      match matchNumDate str.data with
      | some m =>
        String.mk (padTwo m.1) ++ "-" ++ monthOr (digitsToNat m.2.1) ++ "-" ++
          sliceLast2 (String.mk m.2.2)
      | none => str

/-- Embeds `/^\d{2}:\d{2}$/.test(str)`. -/
def isTwoTwo (l : List Char) : Bool :=
  match l with
  | [a, b, ':', c, d] => a.isDigit && b.isDigit && c.isDigit && d.isDigit
  | _ => false

/-- Embeds `str.match(/^(\d{1,2}):(\d{2})(?::\d{2})?$/)`, returning the
hour and minute captures. -/
def parseHMSx (l : List Char) : Option (List Char × List Char) :=
  match l with
  | [a, ':', c, d] =>
    if a.isDigit && c.isDigit && d.isDigit then some ([a], [c, d]) else none
  | [a, b, ':', c, d] =>
    if a.isDigit && b.isDigit && c.isDigit && d.isDigit then some ([a, b], [c, d]) else none
  | [a, ':', c, d, ':', e, f] =>
    if a.isDigit && c.isDigit && d.isDigit && e.isDigit && f.isDigit then some ([a], [c, d])
    else none
  | [a, b, ':', c, d, ':', e, f] =>
    if a.isDigit && b.isDigit && c.isDigit && d.isDigit && e.isDigit && f.isDigit then
      some ([a, b], [c, d])
    else none
  | _ => none

/-- Embeds `WeatherExcelService.normalizeTime` (hours padded as a string
with `padStart`, seconds dropped). -/
def normalizeTime (v : JSV) : String :=
  if !v.truthy then "" else
  let str := jsTrim v.toStr
  if isTwoTwo str.data then str
  else
    match parseHMSx str.data with
    | some m => String.mk (padTwo m.1 ++ ':' :: m.2)
    | none => str

/-! `WeatherService.getDateVariations`. -/

/-- Embeds `[...new Set(xs)]`: dedup keeping first occurrences. -/
def uniqFirstAux : List String → List String → List String
  | [], _ => []
  | s :: rest, seen =>
    if seen.contains s then uniqFirstAux rest seen
    else s :: uniqFirstAux rest (s :: seen)

def uniqFirst (l : List String) : List String := uniqFirstAux l []

/-- The `DD-MM-YYYY`-branch of `getDateVariations` (the first `if` block of
the source). -/
def fromDDMMYYYYVars (date : String) : List String :=
  match date.data with
  | [a, b, '-', c, d, '-', e, f, g, h] =>
    if a.isDigit && b.isDigit && c.isDigit && d.isDigit &&
       e.isDigit && f.isDigit && g.isDigit && h.isDigit then
      let monthIndex : ℤ := (digitsToNat [c, d] : ℤ) - 1
      if 0 ≤ monthIndex && monthIndex < 12 then
        [String.mk [a, b] ++ "-" ++ ((MONTHS.get? monthIndex.toNat).getD "") ++ "-" ++
           String.mk [g, h],
         String.mk [e, f, g, h] ++ "-" ++ String.mk [c, d] ++ "-" ++ String.mk [a, b]]
      else []
    else []
  | _ => []

/-- The `DD-MMM-YY`-branch of `getDateVariations` (the second `if` block of
the source). -/
def fromDDMMMYYVars (date : String) : List String :=
  match date.data with
  | [a, b, '-', c, d, e, '-', f, g] =>
    if a.isDigit && b.isDigit && c.isAlpha && d.isAlpha && e.isAlpha && f.isDigit && g.isDigit then
      match MONTHS.findIdx? (fun m => lowerData m = ([c, d, e].map Char.toLower)) with
      | some monthIndex =>
        ["" ++ String.mk [a, b] ++ "-" ++ pad2 (monthIndex + 1) ++ "-" ++
           ("20" ++ String.mk [f, g]),
         ("20" ++ String.mk [f, g]) ++ "-" ++ pad2 (monthIndex + 1) ++ "-" ++ String.mk [a, b]]
      | none => []
    else []
  | _ => []

/-- Embeds `WeatherService.getDateVariations`. -/
def getDateVariations (date : String) : List String :=
  uniqFirst (date :: (fromDDMMYYYYVars date ++ fromDDMMMYYVars date))

/-! Submission services. -/

/-- Embeds `WeatherSubmitService.toNumber`: empty/NaN coerce to 0. -/
def toNumber (v : JSV) : NumV :=
  match v with
  | .undef => .fin 0
  | .str "" _ => .fin 0
  | v =>
    match v.toNumV with
    | .nan => .fin 0
    | n => n

/-- The document a weather row is persisted as. -/
structure WSubDoc where
  date : JSV
  time : JSV
  poa : NumV
  ghi : NumV
  albedoUp : NumV
  albedoDown : NumV
  moduleTemp : NumV
  ambientTemp : NumV
  windSpeed : NumV
  rainfall : NumV
  humidity : NumV
deriving DecidableEq, Repr

def buildWDoc (r : Row) (date time : JSV) : WSubDoc :=
  ⟨date, time,
   toNumber (jsGet r "POA"), toNumber (jsGet r "GHI"),
   toNumber (jsGet r "AlbedoUp"), toNumber (jsGet r "AlbedoDown"),
   toNumber (jsGet r "ModuleTemp"), toNumber (jsGet r "AmbientTemp"),
   toNumber (jsGet r "WindSpeed"), toNumber (jsGet r "Rainfall"),
   toNumber (jsGet r "Humidity")⟩

structure WSubmitResult where
  inserted : Nat
  skipped : Nat
  docs : List WSubDoc
  message : String
deriving DecidableEq, Repr

/-- Whether a row is skipped: missing date/time, or an existing (date,
time) record (the store is queried per row against the pre-batch state). -/
def wSubmitAux (existing : JSV → JSV → Bool) : List Row → List WSubDoc × Nat
  | [] => ([], 0)
  | r :: rest =>
    let res := wSubmitAux existing rest
    let date := jsOr (jsGet r "Date") (jsGet r "date")
    let time := jsOr (jsGet r "Time") (jsGet r "time")
    if !date.truthy || !time.truthy then (res.1, res.2 + 1)
    else if existing date time then (res.1, res.2 + 1)
    else (buildWDoc r date time :: res.1, res.2)

/-- Embeds `WeatherSubmitService.submitRows`, with the duplicate-existence
query abstracted as `existing`. -/
def weatherSubmitRows (existing : JSV → JSV → Bool) (rows : List Row) : WSubmitResult :=
  if rows.isEmpty then ⟨0, 0, [], "No data provided"⟩
  else
    let res := wSubmitAux existing rows
    ⟨res.1.length, res.2, res.1,
     "Weather data submission completed. " ++ toString res.1.length ++ " inserted, " ++
       toString res.2 ++ " skipped."⟩

/-- Embeds `MeterSubmitService.num`: null for empty or non-finite. -/
def numOpt (v : JSV) : Option ℚ :=
  match v with
  | .undef => none
  | .str "" _ => none
  | .str _ n => match n with | .fin q => some q | _ => none
  | .num q => some q

/-- The meter document persisted per row. -/
structure MSubDoc where
  date : String
  time : String
  plantStartTime : String
  plantStopTime : String
  total : String
  activeEnergyImport : ℚ
  activeEnergyExport : ℚ
  reactiveEnergyImport : ℚ
  reactiveEnergyExport : ℚ
  voltage : ℚ
  current : ℚ
  frequency : ℚ
  powerFactor : ℚ
  status : JSV
deriving DecidableEq, Repr

/-- One `bulkWrite` operation: `updateOne` keyed on (date, time) with
`upsert: true`. -/
structure MOp where
  date : String
  time : String
  doc : MSubDoc
  upsert : Bool
deriving DecidableEq, Repr

def meterDateStr (r : Row) : String :=
  (jsOr (jsGet r "Date") (jsOr (jsGet r "date") (JSV.str "" (.fin 0)))).toStr |> jsTrim

def meterTimeStr (r : Row) : String :=
  (jsOr (jsGet r "Time") (jsOr (jsGet r "time") (JSV.str "00:00" .nan))).toStr |> jsTrim

/-- Embeds the body of `rows.map` inside `MeterSubmitService.submitRows`:
throws when the row has no date, otherwise builds the upsert op.  The
per-date weather fetch (`getWeatherByDate`, date-variant keyed) is
abstracted as `wFetch`. -/
def meterSubmitOp (wFetch : String → List WDoc) (r : Row) : Except String MOp :=
  let date := meterDateStr r
  let time := meterTimeStr r
  if date = "" then .error "Each row must contain Date"
  else
    let pts := sortedPoints (wFetch date)
    let pst := plantStartOf pts
    let psp := plantStopOf pts
    let total := if isValidHHMM pst && isValidHHMM psp then diffHHMM pst psp else "00:00"
    .ok
      ⟨date, time,
       ⟨date, time, pst, psp, total,
        (numOpt (jsOr (jsGet r "ActiveEnergyImport") (jsGet r "activeEnergyImport"))).getD 0,
        (numOpt (jsGet r "GSS Export Total")).getD 0,
        (numOpt (jsOr (jsGet r "ReactiveEnergyImport") (jsGet r "reactiveEnergyImport"))).getD 0,
        (numOpt (jsOr (jsGet r "ReactiveEnergyExport") (jsGet r "reactiveEnergyExport"))).getD 0,
        (numOpt (jsOr (jsGet r "Voltage") (jsGet r "voltage"))).getD 0,
        (numOpt (jsOr (jsGet r "Current") (jsGet r "current"))).getD 0,
        (numOpt (jsOr (jsGet r "Frequency") (jsGet r "frequency"))).getD 0,
        (numOpt (jsOr (jsGet r "PowerFactor") (jsGet r "powerFactor"))).getD 0,
        jsOr (jsGet r "status") (jsOr (jsGet r "Status") (JSV.str "draft" .nan))⟩,
       true⟩

/-- Embeds `MeterSubmitService.submitRows` up to the `bulkWrite` call: the
`rows.map` aborts the whole batch at the first row lacking a date. -/
def meterSubmitOps (wFetch : String → List WDoc) : List Row → Except String (List MOp)
  | [] => .ok []
  | r :: rest =>
    match meterSubmitOp wFetch r with
    | .error e => .error e
    | .ok op =>
      match meterSubmitOps wFetch rest with
      | .error e => .error e
      | .ok ops => .ok (op :: ops)

/-! Supporting lemmas. -/

/-! Character facts. -/

theorem char_eq_iff_toNat {c d : Char} : c = d ↔ c.toNat = d.toNat := by
  constructor
  · intro h; rw [h]
  · intro h
    have := Char.ofNat_toNat c
    rw [h, Char.ofNat_toNat] at this
    exact this.symm

theorem digit_toNat {c : Char} (h : c.isDigit = true) : 48 ≤ c.toNat ∧ c.toNat ≤ 57 := by
  simp only [Char.isDigit, Bool.and_eq_true, decide_eq_true_eq] at h
  obtain ⟨h1, h2⟩ := h
  rw [ge_iff_le, UInt32.le_def, BitVec.le_def] at h1
  rw [UInt32.le_def, BitVec.le_def] at h2
  exact ⟨h1, h2⟩

theorem digit_cases {c : Char} (h : c.isDigit = true) :
    c = '0' ∨ c = '1' ∨ c = '2' ∨ c = '3' ∨ c = '4' ∨
    c = '5' ∨ c = '6' ∨ c = '7' ∨ c = '8' ∨ c = '9' := by
  obtain ⟨h1, h2⟩ := digit_toNat h
  have hc := Char.ofNat_toNat c
  interval_cases h : c.toNat <;> rw [← hc] <;> simp

theorem digit_facts {c : Char} (h : c.isDigit = true) :
    jsSpace c = false ∧ c ≠ '-' ∧ c ≠ ':' ∧ c ≠ '/' ∧ c ≠ '\n' ∧ c.isAlpha = false := by
  rcases digit_cases h with rfl | rfl | rfl | rfl | rfl | rfl | rfl | rfl | rfl | rfl <;> decide

theorem alpha_toNat {c : Char} (h : c.isAlpha = true) :
    (65 ≤ c.toNat ∧ c.toNat ≤ 90) ∨ (97 ≤ c.toNat ∧ c.toNat ≤ 122) := by
  simp only [Char.isAlpha, Char.isUpper, Char.isLower, Bool.or_eq_true, Bool.and_eq_true,
    decide_eq_true_eq] at h
  rcases h with ⟨h1, h2⟩ | ⟨h1, h2⟩ <;>
    [left; right] <;>
    (constructor <;>
      first
      | (rw [ge_iff_le, UInt32.le_def, BitVec.le_def] at h1; exact h1)
      | (rw [UInt32.le_def, BitVec.le_def] at h2; exact h2))

theorem alpha_facts {c : Char} (h : c.isAlpha = true) :
    jsSpace c = false ∧ c ≠ '-' ∧ c ≠ ':' ∧ c.isDigit = false ∧
    (c.toUpper).isAlpha = true ∧ (c.toLower).isAlpha = true ∧
    c.toUpper.toUpper = c.toUpper ∧ c.toLower.toLower = c.toLower := by
  have hc := Char.ofNat_toNat c
  rcases alpha_toNat h with ⟨h1, h2⟩ | ⟨h1, h2⟩ <;>
    (interval_cases hh : c.toNat <;> rw [← hc] <;> decide)

/-! jsTrim lemmas. -/

theorem dropWhile_eq_self_of_all {p : Char → Bool} {l : List Char}
    (h : ∀ c ∈ l, p c = false) : l.dropWhile p = l := by
  cases l with
  | nil => rfl
  | cons c rest =>
    rw [List.dropWhile_cons_of_neg]
    simp [h c (by simp)]

theorem jsTrim_nows {l : List Char} (h : ∀ c ∈ l, jsSpace c = false) :
    jsTrim (String.mk l) = String.mk l := by
  unfold jsTrim
  rw [show (String.mk l).data = l from rfl]
  rw [dropWhile_eq_self_of_all h,
    dropWhile_eq_self_of_all (fun c hc => h c (List.mem_reverse.mp hc)), List.reverse_reverse]

theorem dropWhile_idem (p : Char → Bool) (l : List Char) :
    (l.dropWhile p).dropWhile p = l.dropWhile p := by
  induction l with
  | nil => rfl
  | cons c rest ih =>
    by_cases h : p c = true
    · rw [List.dropWhile_cons_of_pos h]; exact ih
    · rw [List.dropWhile_cons_of_neg (by simp [h]), List.dropWhile_cons_of_neg (by simp [h])]

theorem dropWhile_head_false {p : Char → Bool} {l t : List Char} {c : Char}
    (h : l.dropWhile p = c :: t) : p c = false := by
  have := List.head?_dropWhile_not p l
  rw [h] at this
  simpa using this

theorem dropWhile_suffix_aux (p : Char → Bool) (l : List Char) :
    ∃ m, l = m ++ l.dropWhile p := by
  induction l with
  | nil => exact ⟨[], rfl⟩
  | cons c rest ih =>
    by_cases h : p c = true
    · obtain ⟨m, hm⟩ := ih
      exact ⟨c :: m, by rw [List.dropWhile_cons_of_pos h]; simpa using hm⟩
    · exact ⟨[], by rw [List.dropWhile_cons_of_neg (by simp [h])]; simp⟩

theorem jsTrim_idem (s : String) : jsTrim (jsTrim s) = jsTrim s := by
  unfold jsTrim
  rw [String.ext_iff]
  set l1 := s.data.dropWhile jsSpace with hl1
  set l2 := l1.reverse.dropWhile jsSpace with hl2
  rw [show (String.mk l2.reverse).data = l2.reverse from rfl]
  have hfront : l2.reverse.dropWhile jsSpace = l2.reverse := by
    cases hD : l2.reverse with
    | nil => rfl
    | cons x t =>
      have hx : jsSpace x = false := by
        have hhead : l2.reverse.head? = some x := by rw [hD]; rfl
        rw [List.head?_reverse] at hhead
        obtain ⟨m, hm⟩ := dropWhile_suffix_aux jsSpace l1.reverse
        have : l2.getLast? = l1.reverse.getLast? := by
          by_cases hnil : l2 = []
          · rw [hnil] at hD; simp at hD
          · rw [hm, List.getLast?_append]
            cases hg : l2.getLast? with
            | none => rw [List.getLast?_eq_none_iff] at hg; exact absurd hg hnil
            | some y => rfl
        rw [this, List.getLast?_reverse] at hhead
        cases hl1c : l1 with
        | nil => rw [hl1c] at hhead; simp at hhead
        | cons z zs =>
          rw [hl1c] at hhead
          simp at hhead
          have := dropWhile_head_false (hl1.symm.trans hl1c)
          rwa [hhead] at this
      rw [List.dropWhile_cons_of_neg (by simp [hx])]
  rw [hfront, List.reverse_reverse, dropWhile_idem]

theorem dropWhile_end_keep {c : Char} (hc : jsSpace c = false) :
    ∀ m : List Char, ∃ t, (m ++ [c]).dropWhile jsSpace = t ++ [c] := by
  intro m
  induction m with
  | nil => exact ⟨[], by rw [List.nil_append, List.dropWhile_cons_of_neg (by simp [hc])]⟩
  | cons d rest ih =>
    by_cases h : jsSpace d = true
    · obtain ⟨t, ht⟩ := ih
      exact ⟨t, by rw [List.cons_append, List.dropWhile_cons_of_pos h]; exact ht⟩
    · exact ⟨d :: rest, by rw [List.cons_append, List.dropWhile_cons_of_neg (by simp [h])]⟩

theorem jsTrim_head {c : Char} {l : List Char} (h : jsSpace c = false) :
    ∃ t, (jsTrim (String.mk (c :: l))).data = c :: t := by
  unfold jsTrim
  rw [show (String.mk (c :: l)).data = c :: l from rfl]
  rw [List.dropWhile_cons_of_neg (by simp [h])]
  rw [List.reverse_cons]
  obtain ⟨t, ht⟩ := dropWhile_end_keep h l.reverse
  rw [ht, List.reverse_append]
  exact ⟨t.reverse, rfl⟩

/-! String and association-list lemmas. -/

theorem mk_append (l m : List Char) : String.mk l ++ String.mk m = String.mk (l ++ m) := rfl

theorem str_ne_of_head_ne {a c : Char} {l m : List Char} (h : a ≠ c) :
    String.mk (a :: l) ≠ String.mk (c :: m) := by
  intro he
  rw [String.ext_iff] at he
  simp at he
  exact h he.1

/-- A string obtained by appending a fixed non-empty suffix differs from any
string with a different last character. -/
theorem append_ne_of_last_ne {b c : String} (a : String)
    (hb : b.data ≠ []) (h : b.data.getLast? ≠ c.data.getLast?) : a ++ b ≠ c := by
  intro he
  apply h
  have hd : (a ++ b).data = c.data := by rw [he]
  rw [String.data_append] at hd
  have := congrArg List.getLast? hd
  rw [List.getLast?_append] at this
  cases hg : b.data.getLast? with
  | none => rw [List.getLast?_eq_none_iff] at hg; exact absurd hg hb
  | some y => rw [hg] at this; rw [← this]; rfl

theorem jsGet_nil (k : String) : jsGet [] k = .undef := rfl

theorem jsGet_cons (p : String × JSV) (r : Row) (k : String) :
    jsGet (p :: r) k = if p.1 = k then p.2 else jsGet r k := by
  unfold jsGet
  rw [List.find?_cons]
  by_cases h : p.1 = k
  · rw [if_pos h, show (p.1 == k) = true from beq_iff_eq.mpr h]
  · rw [if_neg h, show (p.1 == k) = false from beq_eq_false_iff_ne.mpr h]

theorem jsGet_setVal_self (r : Row) (k : String) (v : JSV) :
    jsGet (setVal r k v) k = v := by
  induction r with
  | nil => simp [setVal, jsGet_cons]
  | cons p rest ih =>
    by_cases h : p.1 = k
    · simp [setVal, h, jsGet_cons]
    · simp only [setVal, if_neg h, jsGet_cons, ih, if_neg h]

theorem jsGet_setVal_other (r : Row) {k k2 : String} (v : JSV) (h : k2 ≠ k) :
    jsGet (setVal r k v) k2 = jsGet r k2 := by
  induction r with
  | nil => simp [setVal, jsGet_cons, jsGet_nil, Ne.symm h]
  | cons p rest ih =>
    by_cases hp : p.1 = k
    · simp only [setVal, if_pos hp, jsGet_cons]
      rw [if_neg (Ne.symm h)]
      rw [if_neg (show ¬(p.1 = k2) from fun hh => h (by rw [← hh, hp]))]
    · simp only [setVal, if_neg hp, jsGet_cons, ih]

theorem setVal_mem_keys (r : Row) (k : String) (v : JSV) :
    k ∈ (setVal r k v).map Prod.fst := by
  induction r with
  | nil => simp [setVal]
  | cons p rest ih =>
    by_cases h : p.1 = k
    · simp [setVal, h]
    · simp only [setVal, if_neg h, List.map_cons, List.mem_cons]
      exact Or.inr ih

/-- Re-setting a key to the value its first binding already has is the
identity. -/
theorem setVal_id {r : Row} {k : String} {v : JSV}
    (hmem : k ∈ r.map Prod.fst) (hget : jsGet r k = v) : setVal r k v = r := by
  induction r with
  | nil => simp at hmem
  | cons p rest ih =>
    by_cases h : p.1 = k
    · rw [jsGet_cons, if_pos h] at hget
      simp only [setVal, if_pos h]
      rw [← hget, ← h]
    · simp only [List.map_cons, List.mem_cons] at hmem
      rcases hmem with hmem | hmem
      · exact absurd hmem.symm h
      · rw [jsGet_cons, if_neg h] at hget
        simp only [setVal, if_neg h]
        rw [ih hmem hget]

theorem jsGet_setVals_of_all_ne (r : Row) (kvs : List (String × JSV)) (k : String)
    (h : ∀ p ∈ kvs, p.1 ≠ k) : jsGet (setVals r kvs) k = jsGet r k := by
  induction kvs generalizing r with
  | nil => rfl
  | cons p rest ih =>
    rw [setVals, List.foldl_cons, ← setVals, ih _ (fun q hq => h q (by simp [hq]))]
    exact jsGet_setVal_other r p.2 (Ne.symm (h p (by simp)))

theorem jsGet_setVals_head (r : Row) (k : String) (v : JSV) (kvs : List (String × JSV))
    (h : ∀ p ∈ kvs, p.1 ≠ k) : jsGet (setVals r ((k, v) :: kvs)) k = v := by
  rw [setVals, List.foldl_cons, ← setVals, jsGet_setVals_of_all_ne _ _ _ h]
  exact jsGet_setVal_self r k v

theorem sumTotals_eq_sum (l : List (String × ℚ)) : sumTotals l = (l.map Prod.snd).sum := by
  suffices h : ∀ init : ℚ, l.foldl (fun acc p => acc + p.2) init = init + (l.map Prod.snd).sum by
    have := h 0
    rw [zero_add] at this
    exact this
  induction l with
  | nil => intro init; simp
  | cons p rest ih =>
    intro init
    rw [List.foldl_cons, ih, List.map_cons, List.sum_cons]
    ring

theorem contains_iff {l : List String} {x : String} : l.contains x = true ↔ x ∈ l :=
  List.elem_iff

theorem mem_uniqFirstAux {x : String} :
    ∀ (l seen : List String), x ∈ uniqFirstAux l seen ↔ x ∈ l ∧ x ∉ seen := by
  intro l
  induction l with
  | nil => intro seen; simp [uniqFirstAux]
  | cons s rest ih =>
    intro seen
    rw [uniqFirstAux]
    by_cases h : seen.contains s = true
    · rw [if_pos h, ih]
      simp only [List.mem_cons]
      constructor
      · rintro ⟨h1, h2⟩
        exact ⟨Or.inr h1, h2⟩
      · rintro ⟨h1 | h1, h2⟩
        · subst h1; exact absurd (contains_iff.mp h) h2
        · exact ⟨h1, h2⟩
    · rw [if_neg h]
      simp only [List.mem_cons, ih]
      constructor
      · rintro (rfl | ⟨h1, h2⟩)
        · refine ⟨Or.inl rfl, fun hc => h ?_⟩
          exact contains_iff.mpr hc
        · refine ⟨Or.inr h1, fun hc => h2 (by simp [hc])⟩
      · rintro ⟨h1, h2⟩
        by_cases hxs : x = s
        · exact Or.inl hxs
        · rcases h1 with h1 | h1
          · exact absurd h1 hxs
          · right
            refine ⟨h1, fun hc => ?_⟩
            rcases hc with hc | hc
            · exact hxs hc
            · exact h2 hc

theorem mem_uniqFirst {x : String} {l : List String} : x ∈ uniqFirst l ↔ x ∈ l := by
  rw [uniqFirst, mem_uniqFirstAux]
  simp

theorem mem_foldr_append {α : Type} {f : α → List String} {x : String} :
    ∀ ks : List α, x ∈ ks.foldr (fun k acc => f k ++ acc) [] ↔ ∃ k ∈ ks, x ∈ f k := by
  intro ks
  induction ks with
  | nil => simp
  | cons k rest ih => simp [List.foldr_cons, ih]

/-! Digit-string rendering lemmas. -/

theorem pad2_digits2 {a b : Char} (ha : a.isDigit = true) (hb : b.isDigit = true) :
    pad2 (digitsToNat [a, b]) = String.mk [a, b] := by
  rcases digit_cases ha with rfl | rfl | rfl | rfl | rfl | rfl | rfl | rfl | rfl | rfl <;>
    rcases digit_cases hb with rfl | rfl | rfl | rfl | rfl | rfl | rfl | rfl | rfl | rfl <;>
    decide

theorem pad2_digit1 {a : Char} (ha : a.isDigit = true) :
    pad2 (digitsToNat [a]) = String.mk ['0', a] := by
  rcases digit_cases ha with rfl | rfl | rfl | rfl | rfl | rfl | rfl | rfl | rfl | rfl <;> decide

/-! Truncated/Euclidean remainder normalisation. -/

theorem tmod_norm (x : ℤ) : ((x.tmod 1440) + 1440).tmod 1440 = x % 1440 := by
  cases x with
  | ofNat m =>
    have h1 : (Int.ofNat m).tmod 1440 = ((m % 1440 : ℕ) : ℤ) := rfl
    rw [h1]
    have h2 : (((m % 1440 : ℕ) : ℤ) + 1440) = ((m % 1440 + 1440 : ℕ) : ℤ) := by push_cast; ring
    rw [h2]
    have h3 : ((m % 1440 + 1440 : ℕ) : ℤ).tmod 1440 = (((m % 1440 + 1440) % 1440 : ℕ) : ℤ) := rfl
    rw [h3]
    have h4 : (Int.ofNat m) = ((m : ℕ) : ℤ) := rfl
    rw [h4]
    clear h1 h2 h3 h4
    omega
  | negSucc m =>
    have h1 : (Int.negSucc m).tmod 1440 = -(((m + 1) % 1440 : ℕ) : ℤ) := rfl
    rw [h1]
    have hr : (m + 1) % 1440 < 1440 := Nat.mod_lt _ (by omega)
    have h2 : -(((m + 1) % 1440 : ℕ) : ℤ) + 1440 = ((1440 - (m + 1) % 1440 : ℕ) : ℤ) := by
      push_cast [Nat.cast_sub (le_of_lt hr)]
      ring
    rw [h2]
    have h3 : ((1440 - (m + 1) % 1440 : ℕ) : ℤ).tmod 1440 =
        (((1440 - (m + 1) % 1440) % 1440 : ℕ) : ℤ) := rfl
    rw [h3, Int.negSucc_eq]
    clear h1 h2 h3
    omega

theorem diffHHMM_emod (a b : String) :
    diffHHMM a b =
      minutesToHHMM (((timeToMinutes b : ℤ) - (timeToMinutes a : ℤ)) % 1440) := by
  unfold diffHHMM minutesToHHMM
  simp only []
  rw [tmod_norm, tmod_norm]
  have h : (if ((timeToMinutes a : ℤ)) ≤ ((timeToMinutes b : ℤ)) then
        ((timeToMinutes b : ℤ)) - ((timeToMinutes a : ℤ))
      else 1440 - ((timeToMinutes a : ℤ)) + ((timeToMinutes b : ℤ))) % 1440 =
      ((((timeToMinutes b : ℤ) - (timeToMinutes a : ℤ)) % 1440)) % 1440 := by
    split
    · omega
    · omega
  rw [h]

/-! Plant-operation calculator support. -/

theorem mem_filteredPoints_valid {w : List WDoc} {p : WPoint} (h : p ∈ filteredPoints w) :
    isValidHHMM p.time = true := by
  unfold filteredPoints at h
  rw [List.mem_filterMap] at h
  obtain ⟨d, _, hd⟩ := h
  revert hd
  cases d.poa with
  | fin q =>
    intro hd
    cases hv : isValidHHMM (pointTime d.time) with
    | true => simp only [hv, if_true] at hd; cases hd; exact hv
    | false =>
      simp only [hv, Bool.false_eq_true, if_false] at hd
      exact Option.noConfusion hd
  | nan => intro hd; cases hd
  | posInf => intro hd; cases hd
  | negInf => intro hd; cases hd

theorem mem_sortedPoints_valid {w : List WDoc} {p : WPoint} (h : p ∈ sortedPoints w) :
    isValidHHMM p.time = true :=
  mem_filteredPoints_valid ((List.perm_insertionSort _ _).mem_iff.mp h)

theorem plantStartOf_valid {pts : List WPoint} (h : ∀ p ∈ pts, isValidHHMM p.time = true) :
    isValidHHMM (plantStartOf pts) = true := by
  unfold plantStartOf
  cases hf : pts.find? (fun p => decide (10 ≤ p.poa)) with
  | none => decide
  | some p => exact h p (List.mem_of_find?_eq_some hf)

theorem plantStopOf_valid {pts : List WPoint} (h : ∀ p ∈ pts, isValidHHMM p.time = true) :
    isValidHHMM (plantStopOf pts) = true := by
  unfold plantStopOf
  cases hf : pts.reverse.find? (fun p => decide (0 < p.poa) && decide (p.poa < 50)) with
  | some p => exact h p (List.mem_reverse.mp (List.mem_of_find?_eq_some hf))
  | none =>
    cases hg : pts.reverse.find? (fun p => decide (0 < p.poa)) with
    | some p => exact h p (List.mem_reverse.mp (List.mem_of_find?_eq_some hg))
    | none => decide

theorem plantStartRow_valid (wIdx : String → List WDoc) (r : Row) :
    isValidHHMM (plantStartRow wIdx r) = true := by
  unfold plantStartRow
  split
  · exact plantStartOf_valid (fun p hp => mem_sortedPoints_valid hp)
  · decide

theorem plantStopRow_valid (wIdx : String → List WDoc) (r : Row) :
    isValidHHMM (plantStopRow wIdx r) = true := by
  unfold plantStopRow
  split
  · exact plantStopOf_valid (fun p hp => mem_sortedPoints_valid hp)
  · decide

theorem totalRow_eq (wIdx : String → List WDoc) (r : Row) :
    totalRow wIdx r = diffHHMM (plantStartRow wIdx r) (plantStopRow wIdx r) := by
  unfold totalRow
  rw [if_pos]
  rw [plantStartRow_valid, plantStopRow_valid]
  rfl

/-! Enriched-row field extraction. -/

theorem ne_of_data_head {s t : String} {c d : Char} {l m : List Char}
    (hs : s.data = c :: l) (ht : t.data = d :: m) (h : c ≠ d) : s ≠ t := by
  intro he
  rw [String.ext_iff, hs, ht] at he
  exact h (List.head_eq_of_cons_eq he)

theorem computedFields_key_head {r : Row} {p : String × JSV} (hp : p ∈ computedFields r) :
    ∃ t, p.1.data = 'E' :: t ∨ p.1.data = 'I' :: t := by
  unfold computedFields at hp
  rw [List.mem_append] at hp
  rcases hp with hp | hp <;> rw [List.mem_map] at hp <;> obtain ⟨q, _, hq⟩ := hp <;> rw [← hq]
  · have : "Export Total " ++ q.1 = String.mk ('E' :: ("xport Total " ++ q.1).data) := by
      rw [String.ext_iff]; rfl
    rw [this]
    obtain ⟨t, ht⟩ := jsTrim_head (l := ("xport Total " ++ q.1).data) (c := 'E') (by decide)
    exact ⟨t, Or.inl ht⟩
  · have : "Import Total " ++ q.1 = String.mk ('I' :: ("mport Total " ++ q.1).data) := by
      rw [String.ext_iff]; rfl
    rw [this]
    obtain ⟨t, ht⟩ := jsTrim_head (l := ("mport Total " ++ q.1).data) (c := 'I') (by decide)
    exact ⟨t, Or.inr ht⟩

theorem jsGet_setVals_append (r : Row) (pre : List (String × JSV)) (k : String) (v : JSV)
    (post : List (String × JSV)) (h : ∀ p ∈ post, p.1 ≠ k) :
    jsGet (setVals r (pre ++ (k, v) :: post)) k = v := by
  rw [setVals, List.foldl_append, List.foldl_cons]
  rw [show List.foldl (fun acc p => setVal acc p.1 p.2) r pre = setVals r pre from rfl]
  rw [show List.foldl (fun acc p => setVal acc p.1 p.2) (setVal (setVals r pre) k v) post =
        setVals (setVal (setVals r pre) k v) post from rfl]
  rw [jsGet_setVals_of_all_ne _ _ _ h]
  exact jsGet_setVal_self _ k v

theorem computedFields_ne (r : Row) (k : String) {d : Char} {m : List Char}
    (hk : k.data = d :: m) (hd1 : d ≠ 'E') (hd2 : d ≠ 'I') :
    ∀ p ∈ computedFields r, p.1 ≠ k := by
  intro p hp
  obtain ⟨t, ht | ht⟩ := computedFields_key_head hp
  · exact ne_of_data_head ht hk (fun hc => hd1 hc.symm)
  · exact ne_of_data_head ht hk (fun hc => hd2 hc.symm)

theorem enrich_key_cases {wIdx : String → List WDoc} {r : Row} {p : String × JSV}
    (hp : p ∈ enrichFields wIdx r) :
    p = ("Plant Start Time", JSV.str (plantStartRow wIdx r) .nan) ∨
    p = ("Plant Stop Time", JSV.str (plantStopRow wIdx r) .nan) ∨
    p = ("Total", JSV.str (totalRow wIdx r) .nan) ∨
    p ∈ computedFields r ∨
    p = ("GSS Export Total", JSV.num (gssExportTotal r)) ∨
    p = ("GSS Import Total", JSV.num (gssImportTotal r)) ∨
    p = ("Net Export @GSS", JSV.num (netExportAtGss r)) := by
  unfold enrichFields at hp
  simp only [List.mem_append, List.mem_cons, List.not_mem_nil, or_false] at hp
  tauto

theorem jsGet_enrich_pst (wIdx : String → List WDoc) (r : Row) :
    jsGet (enrichRow wIdx r) "Plant Start Time" = .str (plantStartRow wIdx r) .nan := by
  unfold enrichRow enrichFields
  rw [show ([("Plant Start Time", JSV.str (plantStartRow wIdx r) .nan),
      ("Plant Stop Time", JSV.str (plantStopRow wIdx r) .nan),
      ("Total", JSV.str (totalRow wIdx r) .nan)] ++
     computedFields r ++
     [("GSS Export Total", JSV.num (gssExportTotal r)),
      ("GSS Import Total", JSV.num (gssImportTotal r)),
      ("Net Export @GSS", JSV.num (netExportAtGss r))]) =
    [] ++ ("Plant Start Time", JSV.str (plantStartRow wIdx r) .nan) ::
      ([("Plant Stop Time", JSV.str (plantStopRow wIdx r) .nan),
        ("Total", JSV.str (totalRow wIdx r) .nan)] ++
       computedFields r ++
       [("GSS Export Total", JSV.num (gssExportTotal r)),
        ("GSS Import Total", JSV.num (gssImportTotal r)),
        ("Net Export @GSS", JSV.num (netExportAtGss r))]) from by simp]
  apply jsGet_setVals_append
  intro p hp
  simp only [List.mem_append, List.mem_cons, List.not_mem_nil, or_false] at hp
  rcases hp with ((rfl | rfl) | hp) | (rfl | rfl | rfl)
  · exact (by decide : ("Plant Stop Time" : String) ≠ "Plant Start Time")
  · exact (by decide : ("Total" : String) ≠ "Plant Start Time")
  · exact computedFields_ne r _
      (show ("Plant Start Time" : String).data = 'P' :: "lant Start Time".data from rfl)
      (by decide) (by decide) p hp
  · exact (by decide : ("GSS Export Total" : String) ≠ "Plant Start Time")
  · exact (by decide : ("GSS Import Total" : String) ≠ "Plant Start Time")
  · exact (by decide : ("Net Export @GSS" : String) ≠ "Plant Start Time")

theorem jsGet_enrich_stop (wIdx : String → List WDoc) (r : Row) :
    jsGet (enrichRow wIdx r) "Plant Stop Time" = .str (plantStopRow wIdx r) .nan := by
  unfold enrichRow enrichFields
  rw [show ([("Plant Start Time", JSV.str (plantStartRow wIdx r) .nan),
      ("Plant Stop Time", JSV.str (plantStopRow wIdx r) .nan),
      ("Total", JSV.str (totalRow wIdx r) .nan)] ++
     computedFields r ++
     [("GSS Export Total", JSV.num (gssExportTotal r)),
      ("GSS Import Total", JSV.num (gssImportTotal r)),
      ("Net Export @GSS", JSV.num (netExportAtGss r))]) =
    [("Plant Start Time", JSV.str (plantStartRow wIdx r) .nan)] ++
      ("Plant Stop Time", JSV.str (plantStopRow wIdx r) .nan) ::
      ([("Total", JSV.str (totalRow wIdx r) .nan)] ++
       computedFields r ++
       [("GSS Export Total", JSV.num (gssExportTotal r)),
        ("GSS Import Total", JSV.num (gssImportTotal r)),
        ("Net Export @GSS", JSV.num (netExportAtGss r))]) from by simp]
  apply jsGet_setVals_append
  intro p hp
  simp only [List.mem_append, List.mem_cons, List.not_mem_nil, or_false] at hp
  rcases hp with (rfl | hp) | (rfl | rfl | rfl)
  · exact (by decide : ("Total" : String) ≠ "Plant Stop Time")
  · exact computedFields_ne r _
      (show ("Plant Stop Time" : String).data = 'P' :: "lant Stop Time".data from rfl)
      (by decide) (by decide) p hp
  · exact (by decide : ("GSS Export Total" : String) ≠ "Plant Stop Time")
  · exact (by decide : ("GSS Import Total" : String) ≠ "Plant Stop Time")
  · exact (by decide : ("Net Export @GSS" : String) ≠ "Plant Stop Time")

theorem jsGet_enrich_total (wIdx : String → List WDoc) (r : Row) :
    jsGet (enrichRow wIdx r) "Total" = .str (totalRow wIdx r) .nan := by
  unfold enrichRow enrichFields
  rw [show ([("Plant Start Time", JSV.str (plantStartRow wIdx r) .nan),
      ("Plant Stop Time", JSV.str (plantStopRow wIdx r) .nan),
      ("Total", JSV.str (totalRow wIdx r) .nan)] ++
     computedFields r ++
     [("GSS Export Total", JSV.num (gssExportTotal r)),
      ("GSS Import Total", JSV.num (gssImportTotal r)),
      ("Net Export @GSS", JSV.num (netExportAtGss r))]) =
    [("Plant Start Time", JSV.str (plantStartRow wIdx r) .nan),
     ("Plant Stop Time", JSV.str (plantStopRow wIdx r) .nan)] ++
      ("Total", JSV.str (totalRow wIdx r) .nan) ::
      (computedFields r ++
       [("GSS Export Total", JSV.num (gssExportTotal r)),
        ("GSS Import Total", JSV.num (gssImportTotal r)),
        ("Net Export @GSS", JSV.num (netExportAtGss r))]) from by simp]
  apply jsGet_setVals_append
  intro p hp
  simp only [List.mem_append, List.mem_cons, List.not_mem_nil, or_false] at hp
  rcases hp with hp | (rfl | rfl | rfl)
  · exact computedFields_ne r _
      (show ("Total" : String).data = 'T' :: "otal".data from rfl)
      (by decide) (by decide) p hp
  · exact (by decide : ("GSS Export Total" : String) ≠ "Total")
  · exact (by decide : ("GSS Import Total" : String) ≠ "Total")
  · exact (by decide : ("Net Export @GSS" : String) ≠ "Total")

/-! First/last qualifying-element characterisation of find?. -/

theorem find?_first_char {α : Type} (p : α → Bool) (l : List α) :
    (l.find? p = none ∧ ∀ x ∈ l, p x = false) ∨
    ∃ l1 a l2, l = l1 ++ a :: l2 ∧ (∀ x ∈ l1, p x = false) ∧ p a = true ∧
      l.find? p = some a := by
  induction l with
  | nil => left; simp
  | cons c rest ih =>
    cases hc : p c with
    | true =>
      right
      exact ⟨[], c, rest, by simp, by simp, hc, by rw [List.find?_cons, hc]⟩
    | false =>
      rcases ih with ⟨h1, h2⟩ | ⟨l1, a, l2, heq, hall, hpa, hf⟩
      · left
        refine ⟨?_, ?_⟩
        · rw [List.find?_cons, hc, h1]
        · intro x hx
          rcases List.mem_cons.mp hx with rfl | hx
          · exact hc
          · exact h2 x hx
      · right
        refine ⟨c :: l1, a, l2, by rw [heq]; simp, ?_, hpa, ?_⟩
        · intro x hx
          rcases List.mem_cons.mp hx with rfl | hx
          · exact hc
          · exact hall x hx
        · rw [List.find?_cons, hc, hf]

theorem find?_last_char {α : Type} (p : α → Bool) (l : List α) :
    (l.reverse.find? p = none ∧ ∀ x ∈ l, p x = false) ∨
    ∃ l1 a l2, l = l1 ++ a :: l2 ∧ p a = true ∧ (∀ x ∈ l2, p x = false) ∧
      l.reverse.find? p = some a := by
  rcases find?_first_char p l.reverse with ⟨h1, h2⟩ | ⟨l1, a, l2, heq, hall, hpa, hf⟩
  · left
    exact ⟨h1, fun x hx => h2 x (List.mem_reverse.mpr hx)⟩
  · right
    refine ⟨l2.reverse, a, l1.reverse, ?_, hpa, ?_, hf⟩
    · have := congrArg List.reverse heq
      simpa using this
    · intro x hx
      exact hall x (by simpa using hx)

/-! Sorting facts for the plant calculator. -/

theorem sortedPoints_perm (w : List WDoc) :
    List.Perm (sortedPoints w) (filteredPoints w) :=
  List.perm_insertionSort _ _

theorem sortedPoints_sorted (w : List WDoc) :
    (sortedPoints w).Pairwise (fun a b => timeToMinutes a.time ≤ timeToMinutes b.time) := by
  haveI : IsTotal WPoint (fun a b => timeToMinutes a.time ≤ timeToMinutes b.time) :=
    ⟨fun a b => Nat.le_total _ _⟩
  haveI : IsTrans WPoint (fun a b => timeToMinutes a.time ≤ timeToMinutes b.time) :=
    ⟨fun a b c => Nat.le_trans⟩
  exact List.sorted_insertionSort _ _

theorem dateOk_of_valid {r : Row} (h : isValidDDMMYYYY (rowDateStr r) = true) :
    dateOk r = true := by
  unfold dateOk
  rw [h]
  cases he : rowDateStr r with
  | mk l =>
    cases l with
    | nil => rw [he] at h; exact absurd h (by decide)
    | cons c rest =>
      rw [show (decide (¬String.mk (c :: rest) = "") && true) = true from by
        simp [String.ext_iff]]

/-! Batch-shape facts for the meter validator. -/

theorem processMeter_rows (wIdx : String → List WDoc) :
    ∀ (rows : List Row) (idx : Nat) (seen : List String),
      (processMeter wIdx rows idx seen).1 = rows.map (enrichRow wIdx) := by
  intro rows
  induction rows with
  | nil => intro idx seen; rfl
  | cons r rest ih =>
    intro idx seen
    simp only [processMeter, List.map_cons]
    rw [ih]

theorem processMeter_errors_congr (wIdx wIdx2 : String → List WDoc) :
    ∀ (rows : List Row) (idx : Nat) (seen : List String),
      (processMeter wIdx rows idx seen).2 = (processMeter wIdx2 rows idx seen).2 := by
  intro rows
  induction rows with
  | nil => intro idx seen; rfl
  | cons r rest ih =>
    intro idx seen
    simp only [processMeter]
    rw [ih]

/-! Generic error-accumulation bridge: both validators thread a
duplicate-tracking set through the row loop; `errsGo` is the same loop with
the set represented as an appended list of keys, which is
membership-equivalent. -/

def errsGo (defectsOf : List String → Row → List String) (keyOf : Row → Option String) :
    List Row → Nat → List String → List (Nat × List String)
  | [], _, _ => []
  | r :: rest, idx, seen =>
    (if (defectsOf seen r).isEmpty then [] else [(idx + 2, defectsOf seen r)]) ++
    errsGo defectsOf keyOf rest (idx + 1) (seen ++ (keyOf r).toList)

theorem errsGo_congr (defectsOf : List String → Row → List String) (keyOf : Row → Option String)
    (hcong : ∀ s1 s2 r, (∀ x, s1.contains x = s2.contains x) → defectsOf s1 r = defectsOf s2 r) :
    ∀ (rows : List Row) (idx : Nat) (s1 s2 : List String),
      (∀ x, s1.contains x = s2.contains x) →
      errsGo defectsOf keyOf rows idx s1 = errsGo defectsOf keyOf rows idx s2 := by
  intro rows
  induction rows with
  | nil => intro idx s1 s2 h; rfl
  | cons r rest ih =>
    intro idx s1 s2 h
    rw [errsGo, errsGo, hcong s1 s2 r h]
    rw [ih (idx + 1) (s1 ++ (keyOf r).toList) (s2 ++ (keyOf r).toList)
      (fun x => by
        rw [Bool.eq_iff_iff, contains_iff, contains_iff, List.mem_append, List.mem_append]
        exact or_congr (by rw [← contains_iff, ← contains_iff, h x]) Iff.rfl)]

/-- The defect list `errsGo` records for the row at index `i`. -/
theorem errsGo_entry (defectsOf : List String → Row → List String) (keyOf : Row → Option String) :
    ∀ (rows : List Row) (idx : Nat) (seen : List String) (i : Nat) (hi : i < rows.length),
      defectsOf (seen ++ (rows.take i).filterMap keyOf) (rows.get ⟨i, hi⟩) = [] ∨
      (idx + i + 2, defectsOf (seen ++ (rows.take i).filterMap keyOf) (rows.get ⟨i, hi⟩)) ∈
        errsGo defectsOf keyOf rows idx seen := by
  intro rows
  induction rows with
  | nil => intro idx seen i hi; exact absurd hi (by simp)
  | cons r rest ih =>
    intro idx seen i hi
    cases i with
    | zero =>
      simp only [List.take_zero, List.filterMap_nil, List.append_nil, List.get]
      cases hd : (defectsOf seen r).isEmpty
      · right
        rw [errsGo, if_neg (by rw [hd]; exact Bool.false_ne_true)]
        exact List.mem_append_left _ (by rw [Nat.add_zero]; exact List.mem_singleton.mpr rfl)
      · left
        exact List.isEmpty_iff.mp hd
    | succ i2 =>
      have hi2 : i2 < rest.length := by simpa using hi
      rcases ih (idx + 1) (seen ++ (keyOf r).toList) i2 hi2 with h | h
      · left
        rw [← h]
        congr 1
        simp [List.filterMap_cons]
        cases keyOf r <;> simp [Option.toList]
      · right
        rw [errsGo]
        apply List.mem_append_right
        have harr : idx + 1 + i2 + 2 = idx + (i2 + 1) + 2 := by omega
        rw [harr] at h
        have hseen : (seen ++ (keyOf r).toList) ++ (rest.take i2).filterMap keyOf =
            seen ++ ((r :: rest).take (i2 + 1)).filterMap keyOf := by
          rw [List.append_assoc]
          congr 1
          rw [List.take_succ_cons, List.filterMap_cons]
          cases keyOf r <;> simp [Option.toList]
        rw [hseen] at h
        exact h

theorem mem_iff_of_contains_eq {s1 s2 : List String}
    (h : ∀ x, s1.contains x = s2.contains x) (x : String) : x ∈ s1 ↔ x ∈ s2 := by
  rw [← contains_iff, ← contains_iff, h x]

theorem meterRowDefects_congr (s1 s2 : List String) (r : Row)
    (h : ∀ x, s1.contains x = s2.contains x) :
    meterRowDefects s1 r = meterRowDefects s2 r := by
  unfold meterRowDefects
  rw [h (rowDateStr r)]

def meterKeyOf (r : Row) : Option String :=
  if dateOk r then some (rowDateStr r) else none

theorem processMeter_snd_go (wIdx : String → List WDoc) :
    ∀ (rows : List Row) (idx : Nat) (s1 s2 : List String),
      (∀ x, s1.contains x = s2.contains x) →
      (processMeter wIdx rows idx s1).2 = errsGo meterRowDefects meterKeyOf rows idx s2 := by
  intro rows
  induction rows with
  | nil => intro idx s1 s2 h; rfl
  | cons r rest ih =>
    intro idx s1 s2 h
    simp only [processMeter, errsGo]
    rw [meterRowDefects_congr s1 s2 r h]
    congr 1
    apply ih
    intro x
    rw [Bool.eq_iff_iff, contains_iff, contains_iff, List.mem_append]
    by_cases hd : dateOk r = true
    · rw [if_pos hd]
      rw [show meterKeyOf r = some (rowDateStr r) from by rw [meterKeyOf, if_pos hd]]
      simp only [Option.toList, List.mem_cons, List.mem_singleton, List.not_mem_nil, or_false]
      constructor
      · rintro (rfl | hx)
        · exact Or.inr rfl
        · exact Or.inl ((mem_iff_of_contains_eq h x).mp hx)
      · rintro (hx | rfl)
        · exact Or.inr ((mem_iff_of_contains_eq h x).mpr hx)
        · exact Or.inl rfl
    · rw [if_neg hd]
      rw [show meterKeyOf r = none from by rw [meterKeyOf, if_neg hd]]
      simp only [Option.toList, List.not_mem_nil, or_false]
      exact mem_iff_of_contains_eq h x

theorem meterValidate_errors_go (wIdx : String → List WDoc) (rows : List Row) :
    (meterValidate wIdx rows).errors = errsGo meterRowDefects meterKeyOf rows 0 [] :=
  processMeter_snd_go wIdx rows 0 [] [] (fun _ => rfl)

theorem wRowDefects_congr (s1 s2 : List String) (r : Row)
    (h : ∀ x, s1.contains x = s2.contains x) :
    wRowDefects s1 r = wRowDefects s2 r := by
  simp only [wRowDefects]
  cases hk : wPairKey r with
  | none => rfl
  | some k => dsimp only; rw [h k]

theorem wProcess_snd_go :
    ∀ (rows : List Row) (idx : Nat) (s1 s2 : List String),
      (∀ x, s1.contains x = s2.contains x) →
      (wProcess rows idx s1).2 = errsGo wRowDefects wPairKey rows idx s2 := by
  intro rows
  induction rows with
  | nil => intro idx s1 s2 h; rfl
  | cons r rest ih =>
    intro idx s1 s2 h
    simp only [wProcess, errsGo]
    rw [wRowDefects_congr s1 s2 r h]
    congr 1
    apply ih
    intro x
    rw [Bool.eq_iff_iff]
    cases hk : wPairKey r with
    | none =>
      simp only [Option.toList, List.append_nil]
      rw [contains_iff, contains_iff]
      exact mem_iff_of_contains_eq h x
    | some k =>
      simp only [Option.toList]
      by_cases hc : s1.contains k = true
      · rw [if_pos hc, contains_iff, contains_iff, List.mem_append, List.mem_singleton]
        constructor
        · intro hx
          exact Or.inl ((mem_iff_of_contains_eq h x).mp hx)
        · rintro (hx | rfl)
          · exact (mem_iff_of_contains_eq h x).mpr hx
          · exact contains_iff.mp hc
      · rw [if_neg hc, contains_iff, contains_iff, List.mem_append, List.mem_singleton]
        simp only [List.mem_cons]
        constructor
        · rintro (rfl | hx)
          · exact Or.inr rfl
          · exact Or.inl ((mem_iff_of_contains_eq h x).mp hx)
        · rintro (hx | rfl)
          · exact Or.inr ((mem_iff_of_contains_eq h x).mpr hx)
          · exact Or.inl rfl

theorem weatherValidate_errors_go (rows : List Row) :
    (weatherValidate rows).errors = errsGo wRowDefects wPairKey rows 0 [] :=
  wProcess_snd_go rows 0 [] [] (fun _ => rfl)

theorem wProcess_rows :
    ∀ (rows : List Row) (idx : Nat) (seen : List String),
      (wProcess rows idx seen).1 = rows.map wOutRow := by
  intro rows
  induction rows with
  | nil => intro idx seen; rfl
  | cons r rest ih =>
    intro idx seen
    simp only [wProcess, List.map_cons]
    rw [ih]

/-! Membership analysis of the meter row-defect list. -/

theorem mem_ite_singleton {x msg : String} {c : Prop} [Decidable c]
    (h : x ∈ (if c then [msg] else [])) : x = msg ∧ c := by
  split at h
  · exact ⟨List.mem_singleton.mp h, by assumption⟩
  · exact absurd h (List.not_mem_nil x)

theorem mem_ite_nil {x : String} {l : List String} {c : Prop} [Decidable c]
    (h : x ∈ (if c then l else [])) : x ∈ l ∧ c := by
  split at h
  · exact ⟨h, by assumption⟩
  · exact absurd h (List.not_mem_nil x)

theorem readingDefects_shape {r : Row} {x : String} (h : x ∈ readingDefects r) :
    (∃ k, x = k ++ " must be numeric") ∨ ∃ k, x = k ++ " cannot be negative" := by
  unfold readingDefects at h
  obtain ⟨k, _, hk⟩ := (mem_foldr_append _).mp h
  revert hk
  cases toNumberOrNull (jsGet r k) with
  | none => intro hk; dsimp only at hk; exact absurd hk (List.not_mem_nil x)
  | some n =>
    cases n with
    | fin q =>
      intro hk
      dsimp only at hk
      by_cases hq : q < 0
      · rw [if_pos hq] at hk
        right
        exact ⟨k, List.mem_singleton.mp hk⟩
      · rw [if_neg hq] at hk
        exact absurd hk (List.not_mem_nil x)
    | nan => intro hk; dsimp only at hk; exact Or.inl ⟨k, List.mem_singleton.mp hk⟩
    | posInf => intro hk; dsimp only at hk; exact Or.inl ⟨k, List.mem_singleton.mp hk⟩
    | negInf => intro hk; dsimp only at hk; exact Or.inl ⟨k, List.mem_singleton.mp hk⟩

theorem eitherOr_not_in_reading (r : Row) : eitherOrMsg ∉ readingDefects r := by
  intro h
  rcases readingDefects_shape h with ⟨k, hk⟩ | ⟨k, hk⟩
  · exact append_ne_of_last_ne k (by decide) (by decide) hk.symm
  · exact append_ne_of_last_ne k (by decide) (by decide) hk.symm

theorem eitherOr_mem_iff (seen : List String) (r : Row) :
    eitherOrMsg ∈ meterRowDefects seen r ↔
      hasStartStop r = false ∧ hasAnyReading r = false := by
  unfold meterRowDefects
  simp only [List.mem_append]
  constructor
  · rintro ((((h | h) | h) | h) | h)
    · exfalso
      revert h
      split
      · intro h
        exact absurd (mem_ite_singleton h).1 (by decide)
      · intro h
        exact absurd (List.mem_singleton.mp h) (by decide)
    · exfalso
      revert h
      unfold startFmtDefect
      cases startTimeUser r
      · exact List.not_mem_nil _
      · intro h
        exact absurd (mem_ite_singleton h).1 (by decide)
    · exfalso
      revert h
      unfold stopFmtDefect
      cases stopTimeUser r
      · exact List.not_mem_nil _
      · intro h
        exact absurd (mem_ite_singleton h).1 (by decide)
    · exact absurd h (eitherOr_not_in_reading r)
    · have hc := (mem_ite_nil h).2
      rw [Bool.and_eq_true, Bool.not_eq_eq_eq_not, Bool.not_eq_eq_eq_not] at hc
      exact ⟨hc.1, hc.2⟩
  · rintro ⟨h1, h2⟩
    right
    rw [if_pos (by rw [h1, h2]; rfl)]
    exact List.mem_singleton.mpr rfl

theorem reading_pred_iff (v : Option NumV) :
    (match v with
      | some (NumV.fin _) => true
      | _ => false) = true ↔ ∃ q, v = some (NumV.fin q) := by
  cases v with
  | none => simp
  | some n => cases n <;> simp

/-- C5: the defect string "Each date must have either Start/Stop times OR
Export/Import readings" is pushed for a meter row if and only if the row
has neither a valid (normalised) HH:MM start+stop time pair nor at least
one export/import-named column whose value is present and numeric. -/
theorem c5_either_or_defect_iff (seen : List String) (r : Row) :
    (eitherOrMsg ∈ meterRowDefects seen r ↔
      ¬(hasStartStop r = true) ∧ ¬(hasAnyReading r = true)) ∧
    (hasAnyReading r = true ↔
      ∃ k ∈ readingKeys r, ∃ q : ℚ, toNumberOrNull (jsGet r k) = some (NumV.fin q)) ∧
    (hasStartStop r = true ↔
      optTruthy (startTimeUser r) = true ∧ optTruthy (stopTimeUser r) = true ∧
      isValidHHMM ((startTimeUser r).getD "") = true ∧
      isValidHHMM ((stopTimeUser r).getD "") = true) ∧
    eitherOrMsg = "Each date must have either Start/Stop times OR Export/Import readings" := by
  refine ⟨?_, ?_, ?_, rfl⟩
  · rw [eitherOr_mem_iff]
    constructor
    · rintro ⟨h1, h2⟩
      exact ⟨by simp [h1], by simp [h2]⟩
    · rintro ⟨h1, h2⟩
      exact ⟨by simpa using h1, by simpa using h2⟩
  · unfold hasAnyReading
    rw [List.any_eq_true]
    constructor
    · rintro ⟨k, hk, hp⟩
      exact ⟨k, hk, (reading_pred_iff _).mp hp⟩
    · rintro ⟨k, hk, hp⟩
      exact ⟨k, hk, (reading_pred_iff _).mpr hp⟩
  · unfold hasStartStop
    simp only [Bool.and_eq_true, and_assoc]

/-- C4: when any export/import pair id contains "gss" (case-insensitively)
the GSS totals sum only the GSS-tagged pair totals, otherwise they sum all
of them; Net Export @GSS is their difference; and the concrete
no-GSS-tag row with Export1 Initial=100, Export1 Final=150 gets
GSS Export Total = 50. -/
theorem c4_gss_totals (r : Row) :
    (rowHasGss r = true ↔
      ∃ p ∈ exportPairs r ++ importPairs r, idHasGss p.1 = true) ∧
    gssExportTotal r =
      ((if rowHasGss r then (exportPairs r).filter (fun p => idHasGss p.1)
        else exportPairs r).map Prod.snd).sum ∧
    gssImportTotal r =
      ((if rowHasGss r then (importPairs r).filter (fun p => idHasGss p.1)
        else importPairs r).map Prod.snd).sum ∧
    netExportAtGss r = gssExportTotal r - gssImportTotal r ∧
    gssExportTotal
      [("Export1 Initial", JSV.str "100" (NumV.fin 100)),
       ("Export1 Final", JSV.str "150" (NumV.fin 150))] = 50 ∧
    rowHasGss
      [("Export1 Initial", JSV.str "100" (NumV.fin 100)),
       ("Export1 Final", JSV.str "150" (NumV.fin 150))] = false := by
  have hiff : rowHasGss r = true ↔
      ∃ p ∈ exportPairs r ++ importPairs r, idHasGss p.1 = true := by
    unfold rowHasGss
    rw [Bool.or_eq_true, List.any_eq_true, List.any_eq_true]
    constructor
    · rintro (⟨p, hp, hg⟩ | ⟨p, hp, hg⟩)
      · exact ⟨p, List.mem_append_left _ hp, hg⟩
      · exact ⟨p, List.mem_append_right _ hp, hg⟩
    · rintro ⟨p, hp, hg⟩
      rcases List.mem_append.mp hp with hp | hp
      · exact Or.inl ⟨p, hp, hg⟩
      · exact Or.inr ⟨p, hp, hg⟩
  have hexp : gssExportTotal r =
      ((if rowHasGss r then (exportPairs r).filter (fun p => idHasGss p.1)
        else exportPairs r).map Prod.snd).sum := by
    unfold gssExportTotal
    rw [sumTotals_eq_sum]
  have himp : gssImportTotal r =
      ((if rowHasGss r then (importPairs r).filter (fun p => idHasGss p.1)
        else importPairs r).map Prod.snd).sum := by
    unfold gssImportTotal
    rw [sumTotals_eq_sum]
  have hex : gssExportTotal
      [("Export1 Initial", JSV.str "100" (NumV.fin 100)),
       ("Export1 Final", JSV.str "150" (NumV.fin 150))] = 50 := by
    have h1 : gssExportTotal
        [("Export1 Initial", JSV.str "100" (NumV.fin 100)),
         ("Export1 Final", JSV.str "150" (NumV.fin 150))] = 0 + ((150 : ℚ) - 100) := rfl
    rw [h1]
    norm_num
  exact ⟨hiff, hexp, himp, rfl, hex, by rfl⟩

/-- C1: for every meter row with a valid DD-MM-YYYY date, the enriched
Plant Start/Stop Times are derived from that date's weather samples: the
calculator keeps exactly the samples with parseable time and finite POA
(a permutation), sorts ascending by minutes since midnight, takes as start
the first sample with POA ≥ 10 (else "00:00"), and as stop the
chronologically last sample with 0 < POA < 50, falling back to the last
sample with POA > 0, else "00:00". -/
theorem c1_plant_operation_times (wIdx : String → List WDoc) (r : Row)
    (h : isValidDDMMYYYY (rowDateStr r) = true) :
    List.Perm (sortedPoints (wIdx (rowDateStr r))) (filteredPoints (wIdx (rowDateStr r))) ∧
    (sortedPoints (wIdx (rowDateStr r))).Pairwise
      (fun a b => timeToMinutes a.time ≤ timeToMinutes b.time) ∧
    jsGet (enrichRow wIdx r) "Plant Start Time" =
      JSV.str (plantStartOf (sortedPoints (wIdx (rowDateStr r)))) NumV.nan ∧
    jsGet (enrichRow wIdx r) "Plant Stop Time" =
      JSV.str (plantStopOf (sortedPoints (wIdx (rowDateStr r)))) NumV.nan ∧
    ((∀ p ∈ sortedPoints (wIdx (rowDateStr r)), ¬(10 ≤ p.poa)) ∧
        plantStartOf (sortedPoints (wIdx (rowDateStr r))) = "00:00" ∨
      ∃ l1 p l2, sortedPoints (wIdx (rowDateStr r)) = l1 ++ p :: l2 ∧
        (∀ q ∈ l1, ¬(10 ≤ q.poa)) ∧ 10 ≤ p.poa ∧
        plantStartOf (sortedPoints (wIdx (rowDateStr r))) = p.time) ∧
    ((∃ l1 p l2, sortedPoints (wIdx (rowDateStr r)) = l1 ++ p :: l2 ∧
        (0 < p.poa ∧ p.poa < 50) ∧ (∀ q ∈ l2, ¬(0 < q.poa ∧ q.poa < 50)) ∧
        plantStopOf (sortedPoints (wIdx (rowDateStr r))) = p.time) ∨
      ((∀ p ∈ sortedPoints (wIdx (rowDateStr r)), ¬(0 < p.poa ∧ p.poa < 50)) ∧
        (∃ l1 p l2, sortedPoints (wIdx (rowDateStr r)) = l1 ++ p :: l2 ∧
          0 < p.poa ∧ (∀ q ∈ l2, ¬(0 < q.poa)) ∧
          plantStopOf (sortedPoints (wIdx (rowDateStr r))) = p.time)) ∨
      ((∀ p ∈ sortedPoints (wIdx (rowDateStr r)), ¬(0 < p.poa)) ∧
        plantStopOf (sortedPoints (wIdx (rowDateStr r))) = "00:00")) := by
  have hok := dateOk_of_valid h
  refine ⟨sortedPoints_perm _, sortedPoints_sorted _, ?_, ?_, ?_, ?_⟩
  · rw [jsGet_enrich_pst]
    unfold plantStartRow
    rw [if_pos hok]
  · rw [jsGet_enrich_stop]
    unfold plantStopRow
    rw [if_pos hok]
  · have hchar := find?_first_char (fun p => decide (10 ≤ p.poa))
      (sortedPoints (wIdx (rowDateStr r)))
    rcases hchar with ⟨hf, hall⟩ | ⟨l1, p, l2, heq, hall, hp, hf⟩
    · left
      refine ⟨fun p hp => ?_, ?_⟩
      · have := hall p hp
        simpa using this
      · unfold plantStartOf
        rw [hf]
    · right
      refine ⟨l1, p, l2, heq, fun q hq => by simpa using hall q hq, by simpa using hp, ?_⟩
      unfold plantStartOf
      rw [hf]
  · have hchar := find?_last_char (fun p => decide (0 < p.poa) && decide (p.poa < 50))
      (sortedPoints (wIdx (rowDateStr r)))
    rcases hchar with ⟨hf, hall⟩ | ⟨l1, p, l2, heq, hp, hall, hf⟩
    · have hchar2 := find?_last_char (fun p => decide (0 < p.poa))
        (sortedPoints (wIdx (rowDateStr r)))
      rcases hchar2 with ⟨hg, hall2⟩ | ⟨l1, p, l2, heq, hp, hall2, hg⟩
      · right; right
        refine ⟨fun p hp => by simpa using hall2 p hp, ?_⟩
        unfold plantStopOf
        rw [hf, hg]
      · right; left
        refine ⟨fun q hq => by simpa using hall q hq,
          l1, p, l2, heq, by simpa using hp, fun q hq => by simpa using hall2 q hq, ?_⟩
        unfold plantStopOf
        rw [hf, hg]
    · left
      refine ⟨l1, p, l2, heq, by simpa using hp, fun q hq => by simpa using hall q hq, ?_⟩
      unfold plantStopOf
      rw [hf]

/-- Witness for C1 at a concrete row and weather index. -/
theorem c1_plant_operation_times_witness :
    jsGet (enrichRow
        (fun _ => [⟨"08:00", NumV.fin 60⟩, ⟨"17:30", NumV.fin 40⟩])
        [("Date", JSV.str "01-06-2025" NumV.nan)]) "Plant Start Time" =
      JSV.str (plantStartOf (sortedPoints
        ((fun _ => [⟨"08:00", NumV.fin 60⟩, ⟨"17:30", NumV.fin 40⟩])
          (rowDateStr [("Date", JSV.str "01-06-2025" NumV.nan)])))) NumV.nan :=
  (c1_plant_operation_times
    (fun _ => [⟨"08:00", NumV.fin 60⟩, ⟨"17:30", NumV.fin 40⟩])
    [("Date", JSV.str "01-06-2025" NumV.nan)] (by decide)).2.2.1

/-- C2: for every meter row (enrichment is applied to all rows) the Total
field is stop minus start in minutes reduced modulo 1440 (the Euclidean
remainder, so a numerically earlier stop wraps forward), rendered as
HH:MM; a date with an empty weather sample set yields Plant Start Time =
Plant Stop Time = Total = "00:00"; and the recorded validation errors do
not depend on the weather index at all (no defect for a missing
correlation). -/
theorem c2_total_and_empty_weather (wIdx wIdx2 : String → List WDoc) (rows : List Row)
    (r : Row) :
    (meterValidate wIdx rows).rows = rows.map (enrichRow wIdx) ∧
    jsGet (enrichRow wIdx r) "Total" =
      JSV.str (minutesToHHMM
        (((timeToMinutes (plantStopRow wIdx r) : ℤ) -
          (timeToMinutes (plantStartRow wIdx r) : ℤ)) % 1440)) NumV.nan ∧
    (wIdx (rowDateStr r) = [] →
      plantStartRow wIdx r = "00:00" ∧ plantStopRow wIdx r = "00:00" ∧
      totalRow wIdx r = "00:00" ∧
      jsGet (enrichRow wIdx r) "Total" = JSV.str "00:00" NumV.nan) ∧
    (meterValidate wIdx rows).errors = (meterValidate wIdx2 rows).errors := by
  refine ⟨?_, ?_, ?_, ?_⟩
  · exact processMeter_rows wIdx rows 0 []
  · rw [jsGet_enrich_total, totalRow_eq, diffHHMM_emod]
  · intro hw
    have hstart : plantStartRow wIdx r = "00:00" := by
      unfold plantStartRow
      split
      · rw [hw]; simp [sortedPoints, filteredPoints, plantStartOf]
      · rfl
    have hstop : plantStopRow wIdx r = "00:00" := by
      unfold plantStopRow
      split
      · rw [hw]; simp [sortedPoints, filteredPoints, plantStopOf]
      · rfl
    have htot : totalRow wIdx r = "00:00" := by
      rw [totalRow_eq, hstart, hstop]; rfl
    exact ⟨hstart, hstop, htot, by rw [jsGet_enrich_total, htot]⟩
  · exact processMeter_errors_congr wIdx wIdx2 rows 0 []

/-- Witness for C2 at a concrete row with no weather coverage. -/
theorem c2_total_and_empty_weather_witness :
    plantStartRow (fun _ => []) [("Date", JSV.str "02-06-2025" NumV.nan)] = "00:00" ∧
    plantStopRow (fun _ => []) [("Date", JSV.str "02-06-2025" NumV.nan)] = "00:00" ∧
    totalRow (fun _ => []) [("Date", JSV.str "02-06-2025" NumV.nan)] = "00:00" ∧
    jsGet (enrichRow (fun _ => []) [("Date", JSV.str "02-06-2025" NumV.nan)]) "Total" =
      JSV.str "00:00" NumV.nan :=
  (c2_total_and_empty_weather (fun _ => []) (fun _ => []) []
    [("Date", JSV.str "02-06-2025" NumV.nan)]).2.2.1 rfl


theorem setVal_setVal_self (r : Row) (k : String) (v w : JSV) :
    setVal (setVal r k v) k w = setVal r k w := by
  induction r with
  | nil => simp [setVal]
  | cons p rest ih =>
    by_cases h : p.1 = k
    · simp [setVal, h]
    · simp only [setVal, if_neg h, ih]

theorem mem_keys_setVal {r : Row} {k2 : String} (k : String) (v : JSV)
    (h : k2 ∈ r.map Prod.fst) : k2 ∈ (setVal r k v).map Prod.fst := by
  induction r with
  | nil => simp at h
  | cons p rest ih =>
    by_cases hp : p.1 = k
    · simp only [setVal, if_pos hp, List.map_cons, List.mem_cons]
      simp only [List.map_cons, List.mem_cons] at h
      rcases h with h | h
      · exact Or.inl (by rw [h, hp])
      · exact Or.inr h
    · simp only [setVal, if_neg hp, List.map_cons, List.mem_cons]
      simp only [List.map_cons, List.mem_cons] at h
      rcases h with h | h
      · exact Or.inl h
      · exact Or.inr (ih h)

theorem wOutRow_idem_of (r : Row)
    (hD : wDateOf (wOutRow r) = wDateOf r) (hT : wTimeOf (wOutRow r) = wTimeOf r) :
    wOutRow (wOutRow r) = wOutRow r := by
  have hgD : jsGet (wOutRow r) "Date" =
      (if wDateOf r ≠ "" then JSV.str (wDateOf r) (jsNumOfString (wDateOf r)) else jsGet r "Date") := by
    unfold wOutRow
    rw [jsGet_setVal_other _ _ (by decide : ("Date" : String) ≠ "Time"), jsGet_setVal_self]
  have hgT : jsGet (wOutRow r) "Time" =
      (if wTimeOf r ≠ "" then JSV.str (wTimeOf r) (jsNumOfString (wTimeOf r)) else jsGet r "Time") := by
    unfold wOutRow
    rw [jsGet_setVal_self]
  conv_lhs => rw [wOutRow]
  rw [hD, hT]
  have hvD : (if wDateOf r ≠ "" then JSV.str (wDateOf r) (jsNumOfString (wDateOf r))
      else jsGet (wOutRow r) "Date") =
      (if wDateOf r ≠ "" then JSV.str (wDateOf r) (jsNumOfString (wDateOf r)) else jsGet r "Date") := by
    by_cases h : wDateOf r = ""
    · rw [if_neg (by simp [h]), if_neg (by simp [h]), hgD, if_neg (by simp [h])]
    · rw [if_pos h, if_pos h]
  have hvT : (if wTimeOf r ≠ "" then JSV.str (wTimeOf r) (jsNumOfString (wTimeOf r))
      else jsGet (wOutRow r) "Time") =
      (if wTimeOf r ≠ "" then JSV.str (wTimeOf r) (jsNumOfString (wTimeOf r)) else jsGet r "Time") := by
    by_cases h : wTimeOf r = ""
    · rw [if_neg (by simp [h]), if_neg (by simp [h]), hgT, if_neg (by simp [h])]
    · rw [if_pos h, if_pos h]
  rw [hvD, hvT]
  -- goal: setVal (setVal (wOutRow r) "Date" vD) "Time" vT = wOutRow r
  rw [show wOutRow r = setVal
      (setVal r "Date" (if wDateOf r ≠ "" then JSV.str (wDateOf r) (jsNumOfString (wDateOf r))
        else jsGet r "Date"))
      "Time" (if wTimeOf r ≠ "" then JSV.str (wTimeOf r) (jsNumOfString (wTimeOf r))
        else jsGet r "Time") from rfl]
  rw [show setVal
      (setVal
        (setVal r "Date" (if wDateOf r ≠ "" then JSV.str (wDateOf r) (jsNumOfString (wDateOf r))
          else jsGet r "Date"))
        "Time" (if wTimeOf r ≠ "" then JSV.str (wTimeOf r) (jsNumOfString (wTimeOf r))
          else jsGet r "Time"))
      "Date" (if wDateOf r ≠ "" then JSV.str (wDateOf r) (jsNumOfString (wDateOf r))
        else jsGet r "Date") =
      setVal
        (setVal r "Date" (if wDateOf r ≠ "" then JSV.str (wDateOf r) (jsNumOfString (wDateOf r))
          else jsGet r "Date"))
        "Time" (if wTimeOf r ≠ "" then JSV.str (wTimeOf r) (jsNumOfString (wTimeOf r))
          else jsGet r "Time") from
    setVal_id
      (mem_keys_setVal _ _ (setVal_mem_keys _ _ _))
      (by rw [jsGet_setVal_other _ _ (by decide : ("Date" : String) ≠ "Time"), jsGet_setVal_self])]
  rw [setVal_setVal_self]

theorem norm9_cases {u : String} (hu : jsTrim u = u) :
    normalizeDDMMMYY u = u ∨
    ∃ a b c d e f g : Char, u.data = [a, b, '-', c, d, e, '-', f, g] ∧
      a.isDigit = true ∧ b.isDigit = true ∧ c.isAlpha = true ∧ d.isAlpha = true ∧
      e.isAlpha = true ∧ f.isDigit = true ∧ g.isDigit = true ∧
      normalizeDDMMMYY u = String.mk [a, b, '-', c.toUpper, d.toLower, e.toLower, '-', f, g] := by
  unfold normalizeDDMMMYY
  by_cases he : u = ""
  · left; rw [if_pos he]
  rw [if_neg he, hu]
  split
  · rename_i a b c d e f g heq
    by_cases hg : (a.isDigit && b.isDigit && c.isAlpha && d.isAlpha && e.isAlpha &&
        f.isDigit && g.isDigit) = true
    · right
      simp only [Bool.and_eq_true] at hg
      obtain ⟨⟨⟨⟨⟨⟨ha, hb⟩, hc⟩, hd⟩, he2⟩, hf⟩, hgd⟩ := hg
      refine ⟨a, b, c, d, e, f, g, heq, ha, hb, hc, hd, he2, hf, hgd, ?_⟩
      rw [if_pos (by simp [ha, hb, hc, hd, he2, hf, hgd])]
      rfl
    · left
      rw [if_neg hg]
  · left; rfl

theorem normalizeDDMMMYY_fix {u : String} (hu : jsTrim u = u) :
    jsTrim (normalizeDDMMMYY u) = normalizeDDMMMYY u ∧
    normalizeDDMMMYY (normalizeDDMMMYY u) = normalizeDDMMMYY u := by
  rcases norm9_cases hu with h | ⟨a, b, c, d, e, f, g, hdata, ha, hb, hc, hd, he2, hf, hgd, hout⟩
  · rw [h]
    exact ⟨hu, by rw [h]⟩
  · rw [hout]
    have hCA : (c.toUpper).isAlpha = true := (alpha_facts hc).2.2.2.2.1
    have hDA : (d.toLower).isAlpha = true := (alpha_facts hd).2.2.2.2.2.1
    have hEA : (e.toLower).isAlpha = true := (alpha_facts he2).2.2.2.2.2.1
    have hnos : ∀ x ∈ [a, b, '-', c.toUpper, d.toLower, e.toLower, '-', f, g],
        jsSpace x = false := by
      intro x hx
      simp only [List.mem_cons, List.not_mem_nil, or_false] at hx
      rcases hx with rfl | rfl | rfl | rfl | rfl | rfl | rfl | rfl | rfl
      · exact (digit_facts ha).1
      · exact (digit_facts hb).1
      · decide
      · exact (alpha_facts hCA).1
      · exact (alpha_facts hDA).1
      · exact (alpha_facts hEA).1
      · decide
      · exact (digit_facts hf).1
      · exact (digit_facts hgd).1
    have htrim : jsTrim (String.mk [a, b, '-', c.toUpper, d.toLower, e.toLower, '-', f, g]) =
        String.mk [a, b, '-', c.toUpper, d.toLower, e.toLower, '-', f, g] :=
      jsTrim_nows hnos
    refine ⟨htrim, ?_⟩
    rcases norm9_cases htrim with h2 | ⟨a2, b2, c2, d2, e2, f2, g2, hdata2, _, _, _, _, _, _, _, hout2⟩
    · exact h2
    · rw [show (String.mk [a, b, '-', c.toUpper, d.toLower, e.toLower, '-', f, g]).data =
        [a, b, '-', c.toUpper, d.toLower, e.toLower, '-', f, g] from rfl] at hdata2
      have hinj : a2 = a ∧ b2 = b ∧ c2 = c.toUpper ∧ d2 = d.toLower ∧ e2 = e.toLower ∧
          f2 = f ∧ g2 = g := by
        have h3 := hdata2.symm
        simp only [List.cons.injEq] at h3
        tauto
      obtain ⟨rfl, rfl, rfl, rfl, rfl, rfl, rfl⟩ := hinj
      rw [hout2]
      rw [(alpha_facts hc).2.2.2.2.2.2.1, (alpha_facts hd).2.2.2.2.2.2.2,
        (alpha_facts he2).2.2.2.2.2.2.2]

theorem norm5_cases {u : String} (hu : jsTrim u = u) :
    normalizeHHMMw u = u ∨
    (∃ a c d : Char, u.data = [a, ':', c, d] ∧
      a.isDigit = true ∧ c.isDigit = true ∧ d.isDigit = true ∧
      normalizeHHMMw u = String.mk ['0', a, ':', c, d]) ∨
    (∃ a b c d : Char, u.data = [a, b, ':', c, d] ∧
      a.isDigit = true ∧ b.isDigit = true ∧ c.isDigit = true ∧ d.isDigit = true ∧
      normalizeHHMMw u = String.mk [a, b, ':', c, d]) ∨
    (∃ a c d e f : Char, u.data = [a, ':', c, d, ':', e, f] ∧
      a.isDigit = true ∧ c.isDigit = true ∧ d.isDigit = true ∧
      normalizeHHMMw u = String.mk ['0', a, ':', c, d]) ∨
    (∃ a b c d e f : Char, u.data = [a, b, ':', c, d, ':', e, f] ∧
      a.isDigit = true ∧ b.isDigit = true ∧ c.isDigit = true ∧ d.isDigit = true ∧
      normalizeHHMMw u = String.mk [a, b, ':', c, d]) := by
  unfold normalizeHHMMw
  by_cases he : u = ""
  · left; rw [if_pos he]
  rw [if_neg he, hu]
  split
  · rename_i a c d heq
    by_cases hg : (a.isDigit && c.isDigit && d.isDigit) = true
    · right; left
      simp only [Bool.and_eq_true] at hg
      obtain ⟨⟨ha, hc⟩, hd⟩ := hg
      refine ⟨a, c, d, heq, ha, hc, hd, ?_⟩
      rw [if_pos (by simp [ha, hc, hd]), pad2_digit1 ha]
      rfl
    · left; rw [if_neg hg]
  · rename_i a b c d heq
    by_cases hg : (a.isDigit && b.isDigit && c.isDigit && d.isDigit) = true
    · right; right; left
      simp only [Bool.and_eq_true] at hg
      obtain ⟨⟨⟨ha, hb⟩, hc⟩, hd⟩ := hg
      refine ⟨a, b, c, d, heq, ha, hb, hc, hd, ?_⟩
      rw [if_pos (by simp [ha, hb, hc, hd]), pad2_digits2 ha hb]
      rfl
    · left; rw [if_neg hg]
  · rename_i a c d e f heq
    by_cases hg : (a.isDigit && c.isDigit && d.isDigit && e.isDigit && f.isDigit) = true
    · right; right; right; left
      simp only [Bool.and_eq_true] at hg
      obtain ⟨⟨⟨⟨ha, hc⟩, hd⟩, he2⟩, hf⟩ := hg
      refine ⟨a, c, d, e, f, heq, ha, hc, hd, ?_⟩
      rw [if_pos (by simp [ha, hc, hd, he2, hf]), pad2_digit1 ha]
      rfl
    · left; rw [if_neg hg]
  · rename_i a b c d e f heq
    by_cases hg : (a.isDigit && b.isDigit && c.isDigit && d.isDigit &&
        e.isDigit && f.isDigit) = true
    · right; right; right; right
      simp only [Bool.and_eq_true] at hg
      obtain ⟨⟨⟨⟨⟨ha, hb⟩, hc⟩, hd⟩, he2⟩, hf⟩ := hg
      refine ⟨a, b, c, d, e, f, heq, ha, hb, hc, hd, ?_⟩
      rw [if_pos (by simp [ha, hb, hc, hd, he2, hf]), pad2_digits2 ha hb]
      rfl
    · left; rw [if_neg hg]
  · left; rfl

theorem digits_ne_colon {c : Char} (h : c.isDigit = true) : c ≠ ':' := (digit_facts h).2.2.1

theorem normalizeHHMMw_out5 {a b c d : Char} (ha : a.isDigit = true) (hb : b.isDigit = true)
    (hc : c.isDigit = true) (hd : d.isDigit = true) :
    jsTrim (String.mk [a, b, ':', c, d]) = String.mk [a, b, ':', c, d] ∧
    normalizeHHMMw (String.mk [a, b, ':', c, d]) = String.mk [a, b, ':', c, d] := by
  have htrim : jsTrim (String.mk [a, b, ':', c, d]) = String.mk [a, b, ':', c, d] := by
    exact jsTrim_nows (by
      intro x hx
      simp only [List.mem_cons, List.not_mem_nil, or_false] at hx
      rcases hx with rfl | rfl | rfl | rfl | rfl
      · exact (digit_facts ha).1
      · exact (digit_facts hb).1
      · decide
      · exact (digit_facts hc).1
      · exact (digit_facts hd).1)
  refine ⟨htrim, ?_⟩
  rcases norm5_cases htrim with h | ⟨a2, c2, d2, hdata, _, _, _, _⟩ |
      ⟨a2, b2, c2, d2, hdata, _, _, _, _, hout⟩ |
      ⟨a2, c2, d2, e2, f2, hdata, _, _, _, _⟩ |
      ⟨a2, b2, c2, d2, e2, f2, hdata, _, _, _, _, _⟩
  · exact h
  · exfalso
    rw [show (String.mk [a, b, ':', c, d]).data = [a, b, ':', c, d] from rfl] at hdata
    have h3 := hdata
    simp only [List.cons.injEq] at h3
    exact digits_ne_colon hb h3.2.1
  · rw [show (String.mk [a, b, ':', c, d]).data = [a, b, ':', c, d] from rfl] at hdata
    have h3 := hdata
    simp only [List.cons.injEq, and_true] at h3
    obtain ⟨h4, h5, _, h6, h7⟩ := h3
    rw [hout, ← h4, ← h5, ← h6, ← h7]
  · exfalso
    rw [show (String.mk [a, b, ':', c, d]).data = [a, b, ':', c, d] from rfl] at hdata
    simp at hdata
  · exfalso
    rw [show (String.mk [a, b, ':', c, d]).data = [a, b, ':', c, d] from rfl] at hdata
    simp at hdata

theorem normalizeHHMMw_fix {u : String} (hu : jsTrim u = u) :
    jsTrim (normalizeHHMMw u) = normalizeHHMMw u ∧
    normalizeHHMMw (normalizeHHMMw u) = normalizeHHMMw u := by
  rcases norm5_cases hu with h | ⟨a, c, d, _, ha, hc, hd, hout⟩ |
      ⟨a, b, c, d, _, ha, hb, hc, hd, hout⟩ |
      ⟨a, c, d, e, f, _, ha, hc, hd, hout⟩ |
      ⟨a, b, c, d, e, f, _, ha, hb, hc, hd, hout⟩
  · rw [h]
    exact ⟨hu, by rw [h]⟩
  · rw [hout]
    exact normalizeHHMMw_out5 (by decide) ha hc hd
  · rw [hout]
    exact normalizeHHMMw_out5 ha hb hc hd
  · rw [hout]
    exact normalizeHHMMw_out5 (by decide) ha hc hd
  · rw [hout]
    exact normalizeHHMMw_out5 ha hb hc hd

theorem wDateOf_eq (r : Row) : wDateOf r =
    (if (jsOr (jsGet r "Date") (jsOr (jsGet r "date") (JSV.str "" (.fin 0)))).truthy
     then normalizeDDMMMYY
       (jsTrim ((jsOr (jsGet r "Date") (jsOr (jsGet r "date") (JSV.str "" (.fin 0)))).toStr))
     else "") := rfl

theorem wTimeOf_eq (r : Row) : wTimeOf r =
    (if (jsOr (jsGet r "Time") (jsOr (jsGet r "time") (JSV.str "" (.fin 0)))).truthy
     then normalizeHHMMw
       (jsTrim ((jsOr (jsGet r "Time") (jsOr (jsGet r "time") (JSV.str "" (.fin 0)))).toStr))
     else "") := rfl

theorem wDateOf_fixpoint (r : Row) (h : wDateOf r ≠ "") :
    normalizeDDMMMYY (jsTrim (wDateOf r)) = wDateOf r := by
  rw [wDateOf_eq] at h ⊢
  by_cases hc : (jsOr (jsGet r "Date") (jsOr (jsGet r "date") (JSV.str "" (.fin 0)))).truthy = true
  · rw [if_pos hc]
    have hfix := normalizeDDMMMYY_fix
      (jsTrim_idem ((jsOr (jsGet r "Date") (jsOr (jsGet r "date") (JSV.str "" (.fin 0)))).toStr))
    rw [hfix.1, hfix.2]
  · rw [if_neg hc] at h
    exact absurd rfl h

theorem wTimeOf_fixpoint (r : Row) (h : wTimeOf r ≠ "") :
    normalizeHHMMw (jsTrim (wTimeOf r)) = wTimeOf r := by
  rw [wTimeOf_eq] at h ⊢
  by_cases hc : (jsOr (jsGet r "Time") (jsOr (jsGet r "time") (JSV.str "" (.fin 0)))).truthy = true
  · rw [if_pos hc]
    have hfix := normalizeHHMMw_fix
      (jsTrim_idem ((jsOr (jsGet r "Time") (jsOr (jsGet r "time") (JSV.str "" (.fin 0)))).toStr))
    rw [hfix.1, hfix.2]
  · rw [if_neg hc] at h
    exact absurd rfl h

theorem jsGet_wOutRow_Date (r : Row) : jsGet (wOutRow r) "Date" =
    (if wDateOf r ≠ "" then JSV.str (wDateOf r) (jsNumOfString (wDateOf r))
     else jsGet r "Date") := by
  unfold wOutRow
  rw [jsGet_setVal_other _ _ (by decide : ("Date" : String) ≠ "Time"), jsGet_setVal_self]

theorem jsGet_wOutRow_Time (r : Row) : jsGet (wOutRow r) "Time" =
    (if wTimeOf r ≠ "" then JSV.str (wTimeOf r) (jsNumOfString (wTimeOf r))
     else jsGet r "Time") := by
  unfold wOutRow
  rw [jsGet_setVal_self]

theorem jsGet_wOutRow_other (r : Row) {k : String} (h1 : k ≠ "Date") (h2 : k ≠ "Time") :
    jsGet (wOutRow r) k = jsGet r k := by
  unfold wOutRow
  rw [jsGet_setVal_other _ _ h2, jsGet_setVal_other _ _ h1]

theorem wDateOf_wOutRow (r : Row) : wDateOf (wOutRow r) = wDateOf r := by
  have hgd : jsGet (wOutRow r) "date" = jsGet r "date" :=
    jsGet_wOutRow_other r (by decide) (by decide)
  by_cases h0 : wDateOf r = ""
  · rw [wDateOf_eq (wOutRow r), jsGet_wOutRow_Date, hgd,
      if_neg (show ¬(wDateOf r ≠ "") from by simp [h0]), ← wDateOf_eq]
  · rw [wDateOf_eq (wOutRow r), jsGet_wOutRow_Date, hgd, if_pos h0]
    rw [show jsOr (JSV.str (wDateOf r) (jsNumOfString (wDateOf r)))
        (jsOr (jsGet r "date") (JSV.str "" (.fin 0))) =
        JSV.str (wDateOf r) (jsNumOfString (wDateOf r)) from rfl]
    rw [if_pos (by simp [JSV.truthy, h0])]
    exact wDateOf_fixpoint r h0

theorem wTimeOf_wOutRow (r : Row) : wTimeOf (wOutRow r) = wTimeOf r := by
  have hgt : jsGet (wOutRow r) "time" = jsGet r "time" :=
    jsGet_wOutRow_other r (by decide) (by decide)
  by_cases h0 : wTimeOf r = ""
  · rw [wTimeOf_eq (wOutRow r), jsGet_wOutRow_Time, hgt,
      if_neg (show ¬(wTimeOf r ≠ "") from by simp [h0]), ← wTimeOf_eq]
  · rw [wTimeOf_eq (wOutRow r), jsGet_wOutRow_Time, hgt, if_pos h0]
    rw [show jsOr (JSV.str (wTimeOf r) (jsNumOfString (wTimeOf r)))
        (jsOr (jsGet r "time") (JSV.str "" (.fin 0))) =
        JSV.str (wTimeOf r) (jsNumOfString (wTimeOf r)) from rfl]
    rw [if_pos (by simp [JSV.truthy, h0])]
    exact wTimeOf_fixpoint r h0

theorem wPairKey_wOutRow (r : Row) : wPairKey (wOutRow r) = wPairKey r := by
  unfold wPairKey
  rw [wDateOf_wOutRow, wTimeOf_wOutRow]

theorem wRowDefects_wOutRow (seen : List String) (r : Row) :
    wRowDefects seen (wOutRow r) = wRowDefects seen r := by
  simp only [wRowDefects]
  rw [wDateOf_wOutRow, wTimeOf_wOutRow, wPairKey_wOutRow,
    jsGet_wOutRow_other r (by decide : ("POA" : String) ≠ "Date") (by decide),
    jsGet_wOutRow_other r (by decide : ("GHI" : String) ≠ "Date") (by decide),
    jsGet_wOutRow_other r (by decide : ("AlbedoUp" : String) ≠ "Date") (by decide),
    jsGet_wOutRow_other r (by decide : ("AlbedoDown" : String) ≠ "Date") (by decide),
    jsGet_wOutRow_other r (by decide : ("ModuleTemp" : String) ≠ "Date") (by decide),
    jsGet_wOutRow_other r (by decide : ("AmbientTemp" : String) ≠ "Date") (by decide),
    jsGet_wOutRow_other r (by decide : ("WindSpeed" : String) ≠ "Date") (by decide),
    jsGet_wOutRow_other r (by decide : ("Rainfall" : String) ≠ "Date") (by decide),
    jsGet_wOutRow_other r (by decide : ("Humidity" : String) ≠ "Date") (by decide)]

theorem wOutRow_idem (r : Row) : wOutRow (wOutRow r) = wOutRow r :=
  wOutRow_idem_of r (wDateOf_wOutRow r) (wTimeOf_wOutRow r)

theorem wProcess_map_wOutRow :
    ∀ (rows : List Row) (idx : Nat) (seen : List String),
      wProcess (rows.map wOutRow) idx seen = wProcess rows idx seen := by
  intro rows
  induction rows with
  | nil => intro idx seen; rfl
  | cons r rest ih =>
    intro idx seen
    simp only [List.map_cons, wProcess]
    rw [wRowDefects_wOutRow, wPairKey_wOutRow, wOutRow_idem, ih]

theorem weatherValidate_idem (rows : List Row) :
    weatherValidate ((weatherValidate rows).rows) = weatherValidate rows := by
  rw [show (weatherValidate rows).rows = (wProcess rows 0 []).1 from rfl]
  rw [wProcess_rows]
  show (let res := wProcess (rows.map wOutRow) 0 []; ValidationResult.mk res.1 res.2 res.2.isEmpty) =
    weatherValidate rows
  rw [wProcess_map_wOutRow]
  rfl

theorem readingDefect_neg_mem {r : Row} {k : String} {q : ℚ}
    (hk : k ∈ readingKeys r)
    (hv : toNumberOrNull (jsGet r k) = some (.fin q))
    (hq : q < 0) :
    (k ++ " cannot be negative") ∈ readingDefects r := by
  unfold readingDefects
  rw [mem_foldr_append]
  refine ⟨k, hk, ?_⟩
  rw [hv]
  simp [if_pos hq]

def c7row : Row :=
  [("Date", JSV.str "01-06-2025" NumV.nan),
   ("Import1 Initial", JSV.str "0" (NumV.fin 0)),
   ("Import1 Final", JSV.str "50" (NumV.fin 50))]

def c7w : String → List WDoc := fun _ => []

/-- C7 counterexample: re-running the meter validator on the rows output by a
first run is not the identity on errors. The single row {Date: "01-06-2025",
Import1 Initial: 0, Import1 Final: 50} validates cleanly, but its enriched
output row carries the appended computed column `Net Export @GSS = -50`,
which the second run reads as a negative reading and flags. -/
theorem c7_meter_rerun_cex :
    (meterValidate c7w (meterValidate c7w [c7row]).rows).errors ≠
    (meterValidate c7w [c7row]).errors := by
  have hq : netExportAtGss c7row < 0 := by
    rw [show netExportAtGss c7row = 0 - ((0 : ℚ) + (50 - 0)) from rfl]
    norm_num
  have hmemr : ("Net Export @GSS cannot be negative" : String) ∈
      readingDefects (enrichRow c7w c7row) := by
    have h := readingDefect_neg_mem (r := enrichRow c7w c7row)
      (k := "Net Export @GSS") (q := netExportAtGss c7row) (by decide) rfl hq
    exact h
  have hmem : ("Net Export @GSS cannot be negative" : String) ∈
      meterRowDefects [] (enrichRow c7w c7row) := by
    unfold meterRowDefects
    exact List.mem_append_left _ (List.mem_append_right _ hmemr)
  have hds : meterRowDefects [] (enrichRow c7w c7row) ≠ [] := by
    intro h
    rw [h] at hmem
    exact List.not_mem_nil _ hmem
  have he2 : (meterValidate c7w [enrichRow c7w c7row]).errors =
      [(2, meterRowDefects [] (enrichRow c7w c7row))] := by
    rw [meterValidate_errors_go, errsGo, errsGo,
      if_neg (fun hc => hds (List.isEmpty_iff.mp hc))]
    simp
  have h1 : (meterValidate c7w [c7row]).errors = [] := by decide
  rw [show (meterValidate c7w [c7row]).rows = [enrichRow c7w c7row] from rfl, he2, h1]
  simp

/-- C7 (amended): validation is deterministic — re-running either validator on
the unchanged original input yields identical results — and the weather
validator is moreover idempotent on its own output rows. (The meter validator
is not idempotent on its output rows; see the counterexample.) -/
theorem c7_validate_rerun (wIdx : String → List WDoc) (mrows wrows : List Row) :
    meterValidate wIdx mrows = meterValidate wIdx mrows ∧
    weatherValidate wrows = weatherValidate wrows ∧
    weatherValidate ((weatherValidate wrows).rows) = weatherValidate wrows :=
  ⟨rfl, rfl, weatherValidate_idem wrows⟩

theorem toNumber_zero_of_blank (v : JSV)
    (h : v = .undef ∨ (∃ n, v = .str "" n) ∨ v.toNumV = .nan) :
    toNumber v = .fin 0 := by
  rcases h with rfl | ⟨n, rfl⟩ | h
  · rfl
  · rfl
  · cases v with
    | undef => rfl
    | num q => simp [JSV.toNumV] at h
    | str s n =>
      rw [show (JSV.str s n).toNumV = n from rfl] at h
      subst h
      by_cases hs : s = ""
      · subst hs; rfl
      · unfold toNumber
        split
        · rfl
        · rfl
        · rename_i v hne hne2
          rfl

theorem mem_wSubmitAux (existing : JSV → JSV → Bool) :
    ∀ (rows : List Row) (doc : WSubDoc), doc ∈ (wSubmitAux existing rows).1 →
      ∃ r ∈ rows, doc = buildWDoc r (jsOr (jsGet r "Date") (jsGet r "date"))
        (jsOr (jsGet r "Time") (jsGet r "time")) := by
  intro rows
  induction rows with
  | nil => intro doc h; simp [wSubmitAux] at h
  | cons r rest ih =>
    intro doc h
    simp only [wSubmitAux] at h
    split at h
    · obtain ⟨r2, hr2, hd⟩ := ih doc h
      exact ⟨r2, List.mem_cons_of_mem _ hr2, hd⟩
    · split at h
      · obtain ⟨r2, hr2, hd⟩ := ih doc h
        exact ⟨r2, List.mem_cons_of_mem _ hr2, hd⟩
      · rcases List.mem_cons.mp h with rfl | h2
        · exact ⟨r, List.mem_cons_self _ _, rfl⟩
        · obtain ⟨r2, hr2, hd⟩ := ih doc h2
          exact ⟨r2, List.mem_cons_of_mem _ hr2, hd⟩

/-- C10: every persisted weather document comes from a batch row with each
sensor field stored as `toNumber` of the row's cell, and `toNumber` coerces
blank, missing and non-numeric values to the number 0. -/
theorem c10_blank_sensors_zero (existing : JSV → JSV → Bool) (rows : List Row)
    (doc : WSubDoc) (h : doc ∈ (weatherSubmitRows existing rows).docs) :
    (∃ r ∈ rows,
      doc = buildWDoc r (jsOr (jsGet r "Date") (jsGet r "date"))
        (jsOr (jsGet r "Time") (jsGet r "time")) ∧
      doc.poa = toNumber (jsGet r "POA") ∧
      doc.ghi = toNumber (jsGet r "GHI") ∧
      doc.albedoUp = toNumber (jsGet r "AlbedoUp") ∧
      doc.albedoDown = toNumber (jsGet r "AlbedoDown") ∧
      doc.moduleTemp = toNumber (jsGet r "ModuleTemp") ∧
      doc.ambientTemp = toNumber (jsGet r "AmbientTemp") ∧
      doc.windSpeed = toNumber (jsGet r "WindSpeed") ∧
      doc.rainfall = toNumber (jsGet r "Rainfall") ∧
      doc.humidity = toNumber (jsGet r "Humidity")) ∧
    ∀ v : JSV, (v = .undef ∨ (∃ n, v = .str "" n) ∨ v.toNumV = .nan) →
      toNumber v = .fin 0 := by
  refine ⟨?_, toNumber_zero_of_blank⟩
  by_cases he : rows.isEmpty = true
  · rw [show (weatherSubmitRows existing rows).docs = [] from by
      unfold weatherSubmitRows; rw [if_pos he]] at h
    exact absurd h (List.not_mem_nil _)
  · rw [show (weatherSubmitRows existing rows).docs = (wSubmitAux existing rows).1 from by
      unfold weatherSubmitRows; rw [if_neg he]] at h
    obtain ⟨r, hr, hd⟩ := mem_wSubmitAux existing rows doc h
    exact ⟨r, hr, hd, by rw [hd]; exact ⟨rfl, rfl, rfl, rfl, rfl, rfl, rfl, rfl, rfl⟩⟩

def c10row : Row :=
  [("Date", JSV.str "01-Jun-25" NumV.nan), ("Time", JSV.str "09:00" NumV.nan),
   ("POA", JSV.str "" (NumV.fin 0)), ("GHI", JSV.str "abc" NumV.nan)]

/-- C10 witness: a concrete batch with a blank POA cell and a non-numeric GHI
cell; the persisted document stores both as 0. -/
theorem c10_blank_sensors_zero_witness :
    buildWDoc c10row (JSV.str "01-Jun-25" NumV.nan) (JSV.str "09:00" NumV.nan) ∈
      (weatherSubmitRows (fun _ _ => false) [c10row]).docs ∧
    toNumber (JSV.str "" (NumV.fin 0)) = .fin 0 ∧
    toNumber (JSV.str "abc" NumV.nan) = .fin 0 := by
  have h := c10_blank_sensors_zero (fun _ _ => false) [c10row]
    (buildWDoc c10row (JSV.str "01-Jun-25" NumV.nan) (JSV.str "09:00" NumV.nan))
    (by decide)
  exact ⟨by decide,
    h.2 (JSV.str "" (NumV.fin 0)) (Or.inr (Or.inl ⟨NumV.fin 0, rfl⟩)),
    h.2 (JSV.str "abc" NumV.nan) (Or.inr (Or.inr rfl))⟩

theorem meterSubmitOp_ok (wFetch : String → List WDoc) (r : Row)
    (h : meterDateStr r ≠ "") :
    ∃ op : MOp, meterSubmitOp wFetch r = .ok op ∧
      op.date = meterDateStr r ∧ op.time = meterTimeStr r ∧ op.upsert = true := by
  simp only [meterSubmitOp]
  rw [if_neg h]
  exact ⟨_, rfl, rfl, rfl, rfl⟩

theorem meterSubmitOp_error_eq (wFetch : String → List WDoc) (r : Row) (e : String)
    (h : meterSubmitOp wFetch r = .error e) : e = "Each row must contain Date" := by
  simp only [meterSubmitOp] at h
  by_cases hd : meterDateStr r = ""
  · rw [if_pos hd] at h
    exact (Except.error.injEq _ _).mp h.symm
  · rw [if_neg hd] at h
    exact absurd h (by simp)

theorem meterSubmitOps_ok (wFetch : String → List WDoc) :
    ∀ rows : List Row, (∀ r ∈ rows, meterDateStr r ≠ "") →
      ∃ ops : List MOp, meterSubmitOps wFetch rows = .ok ops ∧
        List.Forall₂ (fun (r : Row) (op : MOp) =>
          op.date = meterDateStr r ∧ op.time = meterTimeStr r ∧ op.upsert = true) rows ops := by
  intro rows
  induction rows with
  | nil => intro _; exact ⟨[], rfl, List.Forall₂.nil⟩
  | cons r rest ih =>
    intro h
    obtain ⟨op, hop, hfields⟩ := meterSubmitOp_ok wFetch r (h r (List.mem_cons_self _ _))
    obtain ⟨ops, hops, hall⟩ := ih (fun r2 hr2 => h r2 (List.mem_cons_of_mem _ hr2))
    refine ⟨op :: ops, ?_, List.Forall₂.cons hfields hall⟩
    rw [meterSubmitOps, hop, hops]

theorem meterSubmitOps_error (wFetch : String → List WDoc) :
    ∀ rows : List Row, (∃ r ∈ rows, meterDateStr r = "") →
      meterSubmitOps wFetch rows = .error "Each row must contain Date" := by
  intro rows
  induction rows with
  | nil => rintro ⟨r, hr, _⟩; simp at hr
  | cons r rest ih =>
    rintro ⟨r0, hr0, hd0⟩
    rw [meterSubmitOps]
    rcases List.mem_cons.mp hr0 with rfl | hmem
    · rw [show meterSubmitOp wFetch r0 = .error "Each row must contain Date" from by
        simp only [meterSubmitOp]; rw [if_pos hd0]]
    · cases hop : meterSubmitOp wFetch r with
      | error e => rw [meterSubmitOp_error_eq wFetch r e hop]
      | ok op => rw [ih ⟨r0, hmem, hd0⟩]

theorem wSubmitAux_length (existing : JSV → JSV → Bool) :
    ∀ rows : List Row,
      (wSubmitAux existing rows).1.length + (wSubmitAux existing rows).2 = rows.length := by
  intro rows
  induction rows with
  | nil => rfl
  | cons r rest ih =>
    simp only [wSubmitAux]
    split
    · simp only [List.length_cons, ← ih]
      omega
    · split
      · simp only [List.length_cons, ← ih]
        omega
      · simp only [List.length_cons, ← ih]
        omega

/-- C6 (amended): meter submission builds one (date,time)-keyed upsert per row
when every row has a date, but aborts the whole batch with an error as soon as
any row lacks a date; weather submission returns counts with
inserted + skipped = batch size, inserting exactly the returned documents. -/
theorem c6_submit_behaviour (wFetch : String → List WDoc) (existing : JSV → JSV → Bool)
    (mrows wrows : List Row) :
    ((∀ r ∈ mrows, meterDateStr r ≠ "") →
      ∃ ops : List MOp, meterSubmitOps wFetch mrows = .ok ops ∧
        List.Forall₂ (fun (r : Row) (op : MOp) =>
          op.date = meterDateStr r ∧ op.time = meterTimeStr r ∧ op.upsert = true) mrows ops) ∧
    ((∃ r ∈ mrows, meterDateStr r = "") →
      meterSubmitOps wFetch mrows = .error "Each row must contain Date") ∧
    (wrows.isEmpty = false →
      (weatherSubmitRows existing wrows).inserted =
        (weatherSubmitRows existing wrows).docs.length ∧
      (weatherSubmitRows existing wrows).inserted + (weatherSubmitRows existing wrows).skipped =
        wrows.length) := by
  refine ⟨meterSubmitOps_ok wFetch mrows, meterSubmitOps_error wFetch mrows, ?_⟩
  intro hne
  constructor
  · rw [show weatherSubmitRows existing wrows =
      ⟨(wSubmitAux existing wrows).1.length, (wSubmitAux existing wrows).2,
       (wSubmitAux existing wrows).1,
       "Weather data submission completed. " ++ toString (wSubmitAux existing wrows).1.length ++
         " inserted, " ++ toString (wSubmitAux existing wrows).2 ++ " skipped."⟩ from by
      unfold weatherSubmitRows; rw [if_neg (by rw [hne]; exact Bool.false_ne_true)]]
  · rw [show weatherSubmitRows existing wrows =
      ⟨(wSubmitAux existing wrows).1.length, (wSubmitAux existing wrows).2,
       (wSubmitAux existing wrows).1,
       "Weather data submission completed. " ++ toString (wSubmitAux existing wrows).1.length ++
         " inserted, " ++ toString (wSubmitAux existing wrows).2 ++ " skipped."⟩ from by
      unfold weatherSubmitRows; rw [if_neg (by rw [hne]; exact Bool.false_ne_true)]]
    exact wSubmitAux_length existing wrows

/-- C6 counterexample: a meter batch containing a single row with no date is
rejected wholesale with an error rather than skipping that row. -/
theorem c6_meter_missing_date_cex :
    meterSubmitOps (fun _ => []) [([] : Row)] = .error "Each row must contain Date" := rfl

/-- C6 witness: a one-row meter batch with a date yields one upsert op keyed by
its (date, time); a two-row weather batch with one valid and one timeless row
inserts one document and skips one row. -/
theorem c6_submit_behaviour_witness :
    (∀ r ∈ [[("Date", JSV.str "01-06-2025" NumV.nan)]], meterDateStr r ≠ "") ∧
    (∃ ops : List MOp,
      meterSubmitOps (fun _ => []) [[("Date", JSV.str "01-06-2025" NumV.nan)]] = .ok ops ∧
      List.Forall₂ (fun (r : Row) (op : MOp) =>
        op.date = meterDateStr r ∧ op.time = meterTimeStr r ∧ op.upsert = true)
        [[("Date", JSV.str "01-06-2025" NumV.nan)]] ops) := by
  refine ⟨by decide, ?_⟩
  exact (c6_submit_behaviour (fun _ => []) (fun _ _ => false)
    [[("Date", JSV.str "01-06-2025" NumV.nan)]] []).1 (by decide)

theorem mk_ne_empty {c : Char} {l : List Char} : String.mk (c :: l) ≠ "" := by
  intro h
  have h2 := congrArg String.data h
  simp at h2

theorem normalizeTime_collapse1 {a c d : Char} (n : NumV) (ha : a.isDigit = true)
    (hc : c.isDigit = true) (hd : d.isDigit = true) :
    normalizeTime (.str (String.mk [a, ':', c, d]) n) = String.mk ['0', a, ':', c, d] := by
  have htrim : jsTrim (String.mk [a, ':', c, d]) = String.mk [a, ':', c, d] := jsTrim_nows (by
    intro x hx
    simp only [List.mem_cons, List.not_mem_nil, or_false] at hx
    rcases hx with rfl | rfl | rfl | rfl
    · exact (digit_facts ha).1
    · decide
    · exact (digit_facts hc).1
    · exact (digit_facts hd).1)
  simp only [normalizeTime]
  rw [show (JSV.str (String.mk [a, ':', c, d]) n).truthy = true from by
    simp [JSV.truthy, mk_ne_empty]]
  rw [show (JSV.str (String.mk [a, ':', c, d]) n).toStr = String.mk [a, ':', c, d] from rfl,
    htrim]
  rw [show isTwoTwo (String.mk [a, ':', c, d]).data = false from by
    rcases digit_cases hc with rfl | rfl | rfl | rfl | rfl | rfl | rfl | rfl | rfl | rfl <;> rfl]
  rw [show parseHMSx (String.mk [a, ':', c, d]).data = some ([a], [c, d]) from by
    simp [parseHMSx, ha, hc, hd]]
  simp [padTwo]

theorem normalizeTime_collapse2 {a b c d : Char} (n : NumV) (ha : a.isDigit = true)
    (hb : b.isDigit = true) (hc : c.isDigit = true) (hd : d.isDigit = true) :
    normalizeTime (.str (String.mk [a, b, ':', c, d]) n) = String.mk [a, b, ':', c, d] := by
  have htrim : jsTrim (String.mk [a, b, ':', c, d]) = String.mk [a, b, ':', c, d] :=
    jsTrim_nows (by
      intro x hx
      simp only [List.mem_cons, List.not_mem_nil, or_false] at hx
      rcases hx with rfl | rfl | rfl | rfl | rfl
      · exact (digit_facts ha).1
      · exact (digit_facts hb).1
      · decide
      · exact (digit_facts hc).1
      · exact (digit_facts hd).1)
  simp only [normalizeTime]
  rw [show (JSV.str (String.mk [a, b, ':', c, d]) n).truthy = true from by
    simp [JSV.truthy, mk_ne_empty]]
  rw [show (JSV.str (String.mk [a, b, ':', c, d]) n).toStr = String.mk [a, b, ':', c, d] from rfl,
    htrim]
  rw [show isTwoTwo (String.mk [a, b, ':', c, d]).data = true from by
    simp [isTwoTwo, ha, hb, hc, hd]]
  simp

theorem normalizeTime_collapse3 {a c d e f : Char} (n : NumV) (ha : a.isDigit = true)
    (hc : c.isDigit = true) (hd : d.isDigit = true) (he : e.isDigit = true)
    (hf : f.isDigit = true) :
    normalizeTime (.str (String.mk [a, ':', c, d, ':', e, f]) n) =
      String.mk ['0', a, ':', c, d] := by
  have htrim : jsTrim (String.mk [a, ':', c, d, ':', e, f]) =
      String.mk [a, ':', c, d, ':', e, f] := jsTrim_nows (by
    intro x hx
    simp only [List.mem_cons, List.not_mem_nil, or_false] at hx
    rcases hx with rfl | rfl | rfl | rfl | rfl | rfl | rfl
    · exact (digit_facts ha).1
    · decide
    · exact (digit_facts hc).1
    · exact (digit_facts hd).1
    · decide
    · exact (digit_facts he).1
    · exact (digit_facts hf).1)
  simp only [normalizeTime]
  rw [show (JSV.str (String.mk [a, ':', c, d, ':', e, f]) n).truthy = true from by
    simp [JSV.truthy, mk_ne_empty]]
  rw [show (JSV.str (String.mk [a, ':', c, d, ':', e, f]) n).toStr =
    String.mk [a, ':', c, d, ':', e, f] from rfl, htrim]
  rcases digit_cases hc with rfl | rfl | rfl | rfl | rfl | rfl | rfl | rfl | rfl | rfl <;>
    simp [isTwoTwo, parseHMSx, padTwo, ha, hd, he, hf]

theorem normalizeTime_collapse4 {a b c d e f : Char} (n : NumV) (ha : a.isDigit = true)
    (hb : b.isDigit = true) (hc : c.isDigit = true) (hd : d.isDigit = true)
    (he : e.isDigit = true) (hf : f.isDigit = true) :
    normalizeTime (.str (String.mk [a, b, ':', c, d, ':', e, f]) n) =
      String.mk [a, b, ':', c, d] := by
  have htrim : jsTrim (String.mk [a, b, ':', c, d, ':', e, f]) =
      String.mk [a, b, ':', c, d, ':', e, f] := jsTrim_nows (by
    intro x hx
    simp only [List.mem_cons, List.not_mem_nil, or_false] at hx
    rcases hx with rfl | rfl | rfl | rfl | rfl | rfl | rfl | rfl
    · exact (digit_facts ha).1
    · exact (digit_facts hb).1
    · decide
    · exact (digit_facts hc).1
    · exact (digit_facts hd).1
    · decide
    · exact (digit_facts he).1
    · exact (digit_facts hf).1)
  simp only [normalizeTime]
  rw [show (JSV.str (String.mk [a, b, ':', c, d, ':', e, f]) n).truthy = true from by
    simp [JSV.truthy, mk_ne_empty]]
  rw [show (JSV.str (String.mk [a, b, ':', c, d, ':', e, f]) n).toStr =
    String.mk [a, b, ':', c, d, ':', e, f] from rfl, htrim]
  rcases digit_cases hb with rfl | rfl | rfl | rfl | rfl | rfl | rfl | rfl | rfl | rfl <;>
    simp [isTwoTwo, parseHMSx, padTwo, ha, hc, hd, he, hf]

theorem normalizeHHMM_cons {x : Char} {l : List Char} (n : NumV) :
    normalizeHHMM (.str (String.mk (x :: l)) n) =
      (match (jsTrim (String.mk (x :: l))).data with
       | [a, ':', c, d] =>
         if a.isDigit && c.isDigit && d.isDigit then
           some (pad2 (digitsToNat [a]) ++ ":" ++ String.mk [c, d])
         else some (jsTrim (String.mk (x :: l)))
       | [a, b, ':', c, d] =>
         if a.isDigit && b.isDigit && c.isDigit && d.isDigit then
           some (pad2 (digitsToNat [a, b]) ++ ":" ++ String.mk [c, d])
         else some (jsTrim (String.mk (x :: l)))
       | [a, ':', c, d, ':', e, f] =>
         if a.isDigit && c.isDigit && d.isDigit && e.isDigit && f.isDigit then
           some (pad2 (digitsToNat [a]) ++ ":" ++ String.mk [c, d])
         else some (jsTrim (String.mk (x :: l)))
       | [a, b, ':', c, d, ':', e, f] =>
         if a.isDigit && b.isDigit && c.isDigit && d.isDigit && e.isDigit && f.isDigit then
           some (pad2 (digitsToNat [a, b]) ++ ":" ++ String.mk [c, d])
         else some (jsTrim (String.mk (x :: l)))
       | _ => some (jsTrim (String.mk (x :: l)))) := by
  unfold normalizeHHMM
  split
  · rename_i heq
    exact absurd heq (by simp)
  · rename_i n2 heq
    simp only [JSV.str.injEq] at heq
    exact absurd (congrArg String.data heq.1) (by simp)
  · rfl

theorem normalizeHHMM_collapse1 {a c d : Char} (n : NumV) (ha : a.isDigit = true)
    (hc : c.isDigit = true) (hd : d.isDigit = true) :
    normalizeHHMM (.str (String.mk [a, ':', c, d]) n) = some (String.mk ['0', a, ':', c, d]) := by
  have htrim : jsTrim (String.mk [a, ':', c, d]) = String.mk [a, ':', c, d] := jsTrim_nows (by
    intro x hx
    simp only [List.mem_cons, List.not_mem_nil, or_false] at hx
    rcases hx with rfl | rfl | rfl | rfl
    · exact (digit_facts ha).1
    · decide
    · exact (digit_facts hc).1
    · exact (digit_facts hd).1)
  rw [normalizeHHMM_cons, htrim]
  simp [ha, hc, hd, pad2_digit1 ha]
  rfl

theorem normalizeHHMM_collapse2 {a b c d : Char} (n : NumV) (ha : a.isDigit = true)
    (hb : b.isDigit = true) (hc : c.isDigit = true) (hd : d.isDigit = true) :
    normalizeHHMM (.str (String.mk [a, b, ':', c, d]) n) =
      some (String.mk [a, b, ':', c, d]) := by
  have htrim : jsTrim (String.mk [a, b, ':', c, d]) = String.mk [a, b, ':', c, d] :=
    jsTrim_nows (by
      intro x hx
      simp only [List.mem_cons, List.not_mem_nil, or_false] at hx
      rcases hx with rfl | rfl | rfl | rfl | rfl
      · exact (digit_facts ha).1
      · exact (digit_facts hb).1
      · decide
      · exact (digit_facts hc).1
      · exact (digit_facts hd).1)
  rw [normalizeHHMM_cons, htrim]
  rcases digit_cases hb with rfl | rfl | rfl | rfl | rfl | rfl | rfl | rfl | rfl | rfl <;>
  · simp [ha, hc, hd, pad2_digits2 ha hb]
    rfl

theorem normalizeHHMM_collapse3 {a c d e f : Char} (n : NumV) (ha : a.isDigit = true)
    (hc : c.isDigit = true) (hd : d.isDigit = true) (he : e.isDigit = true)
    (hf : f.isDigit = true) :
    normalizeHHMM (.str (String.mk [a, ':', c, d, ':', e, f]) n) =
      some (String.mk ['0', a, ':', c, d]) := by
  have htrim : jsTrim (String.mk [a, ':', c, d, ':', e, f]) =
      String.mk [a, ':', c, d, ':', e, f] := jsTrim_nows (by
    intro x hx
    simp only [List.mem_cons, List.not_mem_nil, or_false] at hx
    rcases hx with rfl | rfl | rfl | rfl | rfl | rfl | rfl
    · exact (digit_facts ha).1
    · decide
    · exact (digit_facts hc).1
    · exact (digit_facts hd).1
    · decide
    · exact (digit_facts he).1
    · exact (digit_facts hf).1)
  rw [normalizeHHMM_cons, htrim]
  rcases digit_cases hc with rfl | rfl | rfl | rfl | rfl | rfl | rfl | rfl | rfl | rfl <;>
  · simp [ha, hd, he, hf, pad2_digit1 ha]
    rfl

theorem normalizeHHMM_collapse4 {a b c d e f : Char} (n : NumV) (ha : a.isDigit = true)
    (hb : b.isDigit = true) (hc : c.isDigit = true) (hd : d.isDigit = true)
    (he : e.isDigit = true) (hf : f.isDigit = true) :
    normalizeHHMM (.str (String.mk [a, b, ':', c, d, ':', e, f]) n) =
      some (String.mk [a, b, ':', c, d]) := by
  have htrim : jsTrim (String.mk [a, b, ':', c, d, ':', e, f]) =
      String.mk [a, b, ':', c, d, ':', e, f] := jsTrim_nows (by
    intro x hx
    simp only [List.mem_cons, List.not_mem_nil, or_false] at hx
    rcases hx with rfl | rfl | rfl | rfl | rfl | rfl | rfl | rfl
    · exact (digit_facts ha).1
    · exact (digit_facts hb).1
    · decide
    · exact (digit_facts hc).1
    · exact (digit_facts hd).1
    · decide
    · exact (digit_facts he).1
    · exact (digit_facts hf).1)
  rw [normalizeHHMM_cons, htrim]
  rcases digit_cases hb with rfl | rfl | rfl | rfl | rfl | rfl | rfl | rfl | rfl | rfl <;>
  · simp [ha, hc, hd, he, hf, pad2_digits2 ha hb]
    rfl

/-- C9 (amended): falsy input normalizes to the empty string; input matching
none of the accepted date or time patterns is returned trimmed (not
unchanged, and not rejected); and H:MM, HH:MM and HH:MM:SS inputs collapse to
zero-padded HH:MM with seconds dropped, in both the Excel-side
`normalizeTime` and the meter-side `normalizeHHMM`. -/
theorem c9_normalize_passthrough_collapse :
    (∀ v : JSV, v.truthy = false → normalizeDate v = "" ∧ normalizeTime v = "") ∧
    (∀ v : JSV, v.truthy = true →
      isDDMMMYYShape (jsTrim v.toStr).data = false →
      matchSlashMonth (jsTrim v.toStr).data = none →
      matchNumDate (jsTrim v.toStr).data = none →
      normalizeDate v = jsTrim v.toStr) ∧
    (∀ v : JSV, v.truthy = true →
      isTwoTwo (jsTrim v.toStr).data = false →
      parseHMSx (jsTrim v.toStr).data = none →
      normalizeTime v = jsTrim v.toStr) ∧
    (∀ (n : NumV) (a c d : Char),
      a.isDigit = true → c.isDigit = true → d.isDigit = true →
      normalizeTime (.str (String.mk [a, ':', c, d]) n) = String.mk ['0', a, ':', c, d] ∧
      normalizeHHMM (.str (String.mk [a, ':', c, d]) n) =
        some (String.mk ['0', a, ':', c, d])) ∧
    (∀ (n : NumV) (a b c d : Char),
      a.isDigit = true → b.isDigit = true → c.isDigit = true → d.isDigit = true →
      normalizeTime (.str (String.mk [a, b, ':', c, d]) n) = String.mk [a, b, ':', c, d] ∧
      normalizeHHMM (.str (String.mk [a, b, ':', c, d]) n) =
        some (String.mk [a, b, ':', c, d])) ∧
    (∀ (n : NumV) (a c d e f : Char),
      a.isDigit = true → c.isDigit = true → d.isDigit = true → e.isDigit = true →
      f.isDigit = true →
      normalizeTime (.str (String.mk [a, ':', c, d, ':', e, f]) n) =
        String.mk ['0', a, ':', c, d] ∧
      normalizeHHMM (.str (String.mk [a, ':', c, d, ':', e, f]) n) =
        some (String.mk ['0', a, ':', c, d])) ∧
    (∀ (n : NumV) (a b c d e f : Char),
      a.isDigit = true → b.isDigit = true → c.isDigit = true → d.isDigit = true →
      e.isDigit = true → f.isDigit = true →
      normalizeTime (.str (String.mk [a, b, ':', c, d, ':', e, f]) n) =
        String.mk [a, b, ':', c, d] ∧
      normalizeHHMM (.str (String.mk [a, b, ':', c, d, ':', e, f]) n) =
        some (String.mk [a, b, ':', c, d])) := by
  refine ⟨?_, ?_, ?_, ?_, ?_, ?_, ?_⟩
  · intro v h
    constructor
    · simp [normalizeDate, h]
    · simp [normalizeTime, h]
  · intro v htru hshape hslash hnum
    simp only [normalizeDate, htru, Bool.not_true, Bool.false_eq_true, if_false]
    rw [if_neg (by rw [hshape]; exact Bool.false_ne_true), hslash, hnum]
  · intro v htru htwo hparse
    simp only [normalizeTime, htru, Bool.not_true, Bool.false_eq_true, if_false]
    rw [if_neg (by rw [htwo]; exact Bool.false_ne_true), hparse]
  · intro n a c d ha hc hd
    exact ⟨normalizeTime_collapse1 n ha hc hd, normalizeHHMM_collapse1 n ha hc hd⟩
  · intro n a b c d ha hb hc hd
    exact ⟨normalizeTime_collapse2 n ha hb hc hd, normalizeHHMM_collapse2 n ha hb hc hd⟩
  · intro n a c d e f ha hc hd he hf
    exact ⟨normalizeTime_collapse3 n ha hc hd he hf, normalizeHHMM_collapse3 n ha hc hd he hf⟩
  · intro n a b c d e f ha hb hc hd he hf
    exact ⟨normalizeTime_collapse4 n ha hb hc hd he hf, normalizeHHMM_collapse4 n ha hb hc hd he hf⟩

/-- C9 counterexample: the unparseable input " abc " is NOT returned
unchanged — both normalizers return it trimmed. -/
theorem c9_unparseable_trim_cex :
    isDDMMMYYShape (jsTrim " abc ").data = false ∧
    matchSlashMonth (jsTrim " abc ").data = none ∧
    matchNumDate (jsTrim " abc ").data = none ∧
    isTwoTwo (jsTrim " abc ").data = false ∧
    parseHMSx (jsTrim " abc ").data = none ∧
    normalizeDate (JSV.str " abc " NumV.nan) = "abc" ∧
    normalizeTime (JSV.str " abc " NumV.nan) = "abc" ∧
    normalizeDate (JSV.str " abc " NumV.nan) ≠ " abc " ∧
    normalizeTime (JSV.str " abc " NumV.nan) ≠ " abc " := by
  decide

/-- C9 witness: concrete instances — "7:30:15" collapses to "07:30" in both
normalizers. -/
theorem c9_normalize_passthrough_collapse_witness :
    normalizeTime (JSV.str (String.mk ['7', ':', '3', '0', ':', '1', '5']) NumV.nan) =
      String.mk ['0', '7', ':', '3', '0'] ∧
    normalizeHHMM (JSV.str (String.mk ['7', ':', '3', '0', ':', '1', '5']) NumV.nan) =
      some (String.mk ['0', '7', ':', '3', '0']) :=
  c9_normalize_passthrough_collapse.2.2.2.2.2.1 NumV.nan '7' '3' '0' '1' '5'
    (by decide) (by decide) (by decide) (by decide) (by decide)

theorem splitChar_date10 {a b c d g h : Char}
    (ha : a ≠ '-') (hb : b ≠ '-') (hc : c ≠ '-') (hd : d ≠ '-')
    (hg : g ≠ '-') (hh : h ≠ '-') :
    splitChar '-' (String.mk [a, b, '-', c, d, '-', '2', '0', g, h]) =
      [String.mk [a, b], String.mk [c, d], String.mk ['2', '0', g, h]] := by
  simp [splitChar, splitCharAux, ha, hb, hc, hd, hg, hh]

theorem isValidDDMMYYYY_mk {a b c d g h : Char}
    (ha : a.isDigit = true) (hb : b.isDigit = true) (hc : c.isDigit = true)
    (hd : d.isDigit = true) (hg : g.isDigit = true) (hh : h.isDigit = true) :
    isValidDDMMYYYY (String.mk [a, b, '-', c, d, '-', '2', '0', g, h]) = true := by
  have htrim : jsTrim (String.mk [a, b, '-', c, d, '-', '2', '0', g, h]) =
      String.mk [a, b, '-', c, d, '-', '2', '0', g, h] := jsTrim_nows (by
    intro x hx
    simp only [List.mem_cons, List.not_mem_nil, or_false] at hx
    rcases hx with rfl | rfl | rfl | rfl | rfl | rfl | rfl | rfl | rfl | rfl <;>
      first
      | decide
      | exact (digit_facts ha).1
      | exact (digit_facts hb).1
      | exact (digit_facts hc).1
      | exact (digit_facts hd).1
      | exact (digit_facts hg).1
      | exact (digit_facts hh).1)
  rw [isValidDDMMYYYY, htrim]
  simp [ha, hb, hc, hd, hg, hh]

theorem ddmmyyyyToDDMMMYY_eq {a b c d g h : Char} {mi : Nat}
    (ha : a ≠ '-') (hb : b ≠ '-') (hc : c ≠ '-') (hd : d ≠ '-')
    (hg : g ≠ '-') (hh : h ≠ '-')
    (hnum : jsToNumDigits (String.mk [c, d]) = some mi)
    (h1 : 1 ≤ mi) (h2 : mi ≤ 12) :
    ddmmyyyyToDDMMMYY (String.mk [a, b, '-', c, d, '-', '2', '0', g, h]) =
      String.mk [a, b] ++ "-" ++ ((MONTHS.get? (mi - 1)).getD "") ++ "-" ++
        String.mk [g, h] := by
  simp only [ddmmyyyyToDDMMMYY, splitChar_date10 ha hb hc hd hg hh]
  rw [show jsIndex [String.mk [a, b], String.mk [c, d], String.mk ['2', '0', g, h]] 1 =
    String.mk [c, d] from rfl] at *
  rw [hnum]
  dsimp only
  rw [if_neg (by simp; omega)]
  rfl

theorem ddmmyyyyToISO_eq {a b c d g h : Char}
    (ha : a ≠ '-') (hb : b ≠ '-') (hc : c ≠ '-') (hd : d ≠ '-')
    (hg : g ≠ '-') (hh : h ≠ '-') :
    ddmmyyyyToISO (String.mk [a, b, '-', c, d, '-', '2', '0', g, h]) =
      String.mk ['2', '0', g, h] ++ "-" ++ String.mk [c, d] ++ "-" ++ String.mk [a, b] := by
  simp only [ddmmyyyyToISO, splitChar_date10 ha hb hc hd hg hh]
  rfl

theorem getDateVariations_mem3 {a b f g : Char} (X : String) {k : Nat}
    (ha : a.isDigit = true) (hb : b.isDigit = true) (hf : f.isDigit = true)
    (hg : g.isDigit = true)
    (hX3 : X.data.length = 3) (hXa : X.data.all Char.isAlpha = true)
    (hidx : MONTHS.findIdx? (fun m => lowerData m = X.data.map Char.toLower) = some k) :
    ("" ++ String.mk [a, b] ++ "-" ++ pad2 (k + 1) ++ "-" ++ ("20" ++ String.mk [f, g])) ∈
      getDateVariations (String.mk [a, b] ++ "-" ++ X ++ "-" ++ String.mk [f, g]) ∧
    (("20" ++ String.mk [f, g]) ++ "-" ++ pad2 (k + 1) ++ "-" ++ String.mk [a, b]) ∈
      getDateVariations (String.mk [a, b] ++ "-" ++ X ++ "-" ++ String.mk [f, g]) := by
  obtain ⟨c, d, e, hdata⟩ : ∃ c d e, X.data = [c, d, e] := by
    match hX : X.data, hX3 with
    | [c, d, e], _ => exact ⟨c, d, e, rfl⟩
  have hca : c.isAlpha = true ∧ d.isAlpha = true ∧ e.isAlpha = true := by
    rw [hdata] at hXa
    simpa using hXa
  obtain ⟨hc, hd, he⟩ := hca
  have hfull : (String.mk [a, b] ++ "-" ++ X ++ "-" ++ String.mk [f, g]).data =
      [a, b, '-', c, d, e, '-', f, g] := by
    show ([a, b] ++ "-".data ++ X.data ++ "-".data ++ [f, g] : List Char) =
      [a, b, '-', c, d, e, '-', f, g]
    rw [hdata]
    rfl
  have h1 : fromDDMMYYYYVars (String.mk [a, b] ++ "-" ++ X ++ "-" ++ String.mk [f, g]) = [] := by
    unfold fromDDMMYYYYVars
    rw [hfull]
    split
    · rename_i heq
      simp at heq
    · rfl
  have h2 : fromDDMMMYYVars (String.mk [a, b] ++ "-" ++ X ++ "-" ++ String.mk [f, g]) =
      ["" ++ String.mk [a, b] ++ "-" ++ pad2 (k + 1) ++ "-" ++ ("20" ++ String.mk [f, g]),
       ("20" ++ String.mk [f, g]) ++ "-" ++ pad2 (k + 1) ++ "-" ++ String.mk [a, b]] := by
    unfold fromDDMMMYYVars
    rw [hfull]
    split
    · rename_i a2 b2 c2 d2 e2 f2 g2 heq
      simp only [List.cons.injEq, and_true] at heq
      obtain ⟨rfl, rfl, rfl, rfl, rfl, rfl, rfl⟩ :
          a = a2 ∧ b = b2 ∧ c = c2 ∧ d = d2 ∧ e = e2 ∧ f = f2 ∧ g = g2 := by tauto
      rw [if_pos (by simp [ha, hb, hc, hd, he, hf, hg])]
      rw [show List.findIdx? (fun m => decide (lowerData m = List.map Char.toLower [c, d, e]))
        MONTHS = some k from by rw [← hdata]; exact hidx]
    · rename_i hnever
      exact absurd rfl (hnever a b c d e f g)
  rw [getDateVariations, h1, h2]
  constructor
  · rw [mem_uniqFirst]
    simp
  · rw [mem_uniqFirst]
    simp


set_option maxHeartbeats 1000000 in
/-- C8: a DD-MM-YYYY date with month 01-12 and year 2000-2099 survives the
round trip through the DD-MMM-YY dialect: the date variations computed from
its DD-MMM-YY form contain both the original DD-MM-YYYY string and its direct
ISO conversion. -/
theorem c8_date_roundtrip (d1 d2 m1 m2 y3 y4 : Char)
    (hd1 : d1.isDigit = true) (hd2 : d2.isDigit = true)
    (hy3 : y3.isDigit = true) (hy4 : y4.isDigit = true)
    (hm : m1 = '0' ∧ m2 = '1' ∨ m1 = '0' ∧ m2 = '2' ∨ m1 = '0' ∧ m2 = '3' ∨
          m1 = '0' ∧ m2 = '4' ∨ m1 = '0' ∧ m2 = '5' ∨ m1 = '0' ∧ m2 = '6' ∨
          m1 = '0' ∧ m2 = '7' ∨ m1 = '0' ∧ m2 = '8' ∨ m1 = '0' ∧ m2 = '9' ∨
          m1 = '1' ∧ m2 = '0' ∨ m1 = '1' ∧ m2 = '1' ∨ m1 = '1' ∧ m2 = '2') :
    isValidDDMMYYYY (String.mk [d1, d2, '-', m1, m2, '-', '2', '0', y3, y4]) = true ∧
    String.mk [d1, d2, '-', m1, m2, '-', '2', '0', y3, y4] ∈
      getDateVariations
        (ddmmyyyyToDDMMMYY (String.mk [d1, d2, '-', m1, m2, '-', '2', '0', y3, y4])) ∧
    ddmmyyyyToISO (String.mk [d1, d2, '-', m1, m2, '-', '2', '0', y3, y4]) ∈
      getDateVariations
        (ddmmyyyyToDDMMMYY (String.mk [d1, d2, '-', m1, m2, '-', '2', '0', y3, y4])) := by
  rcases hm with h | h | h | h | h | h | h | h | h | h | h | h <;>
    obtain ⟨rfl, rfl⟩ := h
  · refine ⟨isValidDDMMYYYY_mk hd1 hd2 (by decide) (by decide) hy3 hy4, ?_, ?_⟩
    · rw [ddmmyyyyToDDMMMYY_eq (digit_facts hd1).2.1 (digit_facts hd2).2.1
        (show ('0' : Char) ≠ '-' from by decide) (show ('1' : Char) ≠ '-' from by decide)
        (digit_facts hy3).2.1 (digit_facts hy4).2.1
        (show jsToNumDigits (String.mk ['0', '1']) = some 1 from rfl)
        (by decide) (by decide)]
      exact (getDateVariations_mem3 "Jan" hd1 hd2 hy3 hy4
        (by decide) (by decide)
        (show MONTHS.findIdx? (fun m => lowerData m = ("Jan" : String).data.map Char.toLower) =
          some 0 from by decide)).1
    · rw [ddmmyyyyToDDMMMYY_eq (digit_facts hd1).2.1 (digit_facts hd2).2.1
        (show ('0' : Char) ≠ '-' from by decide) (show ('1' : Char) ≠ '-' from by decide)
        (digit_facts hy3).2.1 (digit_facts hy4).2.1
        (show jsToNumDigits (String.mk ['0', '1']) = some 1 from rfl)
        (by decide) (by decide),
        ddmmyyyyToISO_eq (digit_facts hd1).2.1 (digit_facts hd2).2.1
        (show ('0' : Char) ≠ '-' from by decide) (show ('1' : Char) ≠ '-' from by decide)
        (digit_facts hy3).2.1 (digit_facts hy4).2.1]
      exact (getDateVariations_mem3 "Jan" hd1 hd2 hy3 hy4
        (by decide) (by decide)
        (show MONTHS.findIdx? (fun m => lowerData m = ("Jan" : String).data.map Char.toLower) =
          some 0 from by decide)).2
  · refine ⟨isValidDDMMYYYY_mk hd1 hd2 (by decide) (by decide) hy3 hy4, ?_, ?_⟩
    · rw [ddmmyyyyToDDMMMYY_eq (digit_facts hd1).2.1 (digit_facts hd2).2.1
        (show ('0' : Char) ≠ '-' from by decide) (show ('2' : Char) ≠ '-' from by decide)
        (digit_facts hy3).2.1 (digit_facts hy4).2.1
        (show jsToNumDigits (String.mk ['0', '2']) = some 2 from rfl)
        (by decide) (by decide)]
      exact (getDateVariations_mem3 "Feb" hd1 hd2 hy3 hy4
        (by decide) (by decide)
        (show MONTHS.findIdx? (fun m => lowerData m = ("Feb" : String).data.map Char.toLower) =
          some 1 from by decide)).1
    · rw [ddmmyyyyToDDMMMYY_eq (digit_facts hd1).2.1 (digit_facts hd2).2.1
        (show ('0' : Char) ≠ '-' from by decide) (show ('2' : Char) ≠ '-' from by decide)
        (digit_facts hy3).2.1 (digit_facts hy4).2.1
        (show jsToNumDigits (String.mk ['0', '2']) = some 2 from rfl)
        (by decide) (by decide),
        ddmmyyyyToISO_eq (digit_facts hd1).2.1 (digit_facts hd2).2.1
        (show ('0' : Char) ≠ '-' from by decide) (show ('2' : Char) ≠ '-' from by decide)
        (digit_facts hy3).2.1 (digit_facts hy4).2.1]
      exact (getDateVariations_mem3 "Feb" hd1 hd2 hy3 hy4
        (by decide) (by decide)
        (show MONTHS.findIdx? (fun m => lowerData m = ("Feb" : String).data.map Char.toLower) =
          some 1 from by decide)).2
  · refine ⟨isValidDDMMYYYY_mk hd1 hd2 (by decide) (by decide) hy3 hy4, ?_, ?_⟩
    · rw [ddmmyyyyToDDMMMYY_eq (digit_facts hd1).2.1 (digit_facts hd2).2.1
        (show ('0' : Char) ≠ '-' from by decide) (show ('3' : Char) ≠ '-' from by decide)
        (digit_facts hy3).2.1 (digit_facts hy4).2.1
        (show jsToNumDigits (String.mk ['0', '3']) = some 3 from rfl)
        (by decide) (by decide)]
      exact (getDateVariations_mem3 "Mar" hd1 hd2 hy3 hy4
        (by decide) (by decide)
        (show MONTHS.findIdx? (fun m => lowerData m = ("Mar" : String).data.map Char.toLower) =
          some 2 from by decide)).1
    · rw [ddmmyyyyToDDMMMYY_eq (digit_facts hd1).2.1 (digit_facts hd2).2.1
        (show ('0' : Char) ≠ '-' from by decide) (show ('3' : Char) ≠ '-' from by decide)
        (digit_facts hy3).2.1 (digit_facts hy4).2.1
        (show jsToNumDigits (String.mk ['0', '3']) = some 3 from rfl)
        (by decide) (by decide),
        ddmmyyyyToISO_eq (digit_facts hd1).2.1 (digit_facts hd2).2.1
        (show ('0' : Char) ≠ '-' from by decide) (show ('3' : Char) ≠ '-' from by decide)
        (digit_facts hy3).2.1 (digit_facts hy4).2.1]
      exact (getDateVariations_mem3 "Mar" hd1 hd2 hy3 hy4
        (by decide) (by decide)
        (show MONTHS.findIdx? (fun m => lowerData m = ("Mar" : String).data.map Char.toLower) =
          some 2 from by decide)).2
  · refine ⟨isValidDDMMYYYY_mk hd1 hd2 (by decide) (by decide) hy3 hy4, ?_, ?_⟩
    · rw [ddmmyyyyToDDMMMYY_eq (digit_facts hd1).2.1 (digit_facts hd2).2.1
        (show ('0' : Char) ≠ '-' from by decide) (show ('4' : Char) ≠ '-' from by decide)
        (digit_facts hy3).2.1 (digit_facts hy4).2.1
        (show jsToNumDigits (String.mk ['0', '4']) = some 4 from rfl)
        (by decide) (by decide)]
      exact (getDateVariations_mem3 "Apr" hd1 hd2 hy3 hy4
        (by decide) (by decide)
        (show MONTHS.findIdx? (fun m => lowerData m = ("Apr" : String).data.map Char.toLower) =
          some 3 from by decide)).1
    · rw [ddmmyyyyToDDMMMYY_eq (digit_facts hd1).2.1 (digit_facts hd2).2.1
        (show ('0' : Char) ≠ '-' from by decide) (show ('4' : Char) ≠ '-' from by decide)
        (digit_facts hy3).2.1 (digit_facts hy4).2.1
        (show jsToNumDigits (String.mk ['0', '4']) = some 4 from rfl)
        (by decide) (by decide),
        ddmmyyyyToISO_eq (digit_facts hd1).2.1 (digit_facts hd2).2.1
        (show ('0' : Char) ≠ '-' from by decide) (show ('4' : Char) ≠ '-' from by decide)
        (digit_facts hy3).2.1 (digit_facts hy4).2.1]
      exact (getDateVariations_mem3 "Apr" hd1 hd2 hy3 hy4
        (by decide) (by decide)
        (show MONTHS.findIdx? (fun m => lowerData m = ("Apr" : String).data.map Char.toLower) =
          some 3 from by decide)).2
  · refine ⟨isValidDDMMYYYY_mk hd1 hd2 (by decide) (by decide) hy3 hy4, ?_, ?_⟩
    · rw [ddmmyyyyToDDMMMYY_eq (digit_facts hd1).2.1 (digit_facts hd2).2.1
        (show ('0' : Char) ≠ '-' from by decide) (show ('5' : Char) ≠ '-' from by decide)
        (digit_facts hy3).2.1 (digit_facts hy4).2.1
        (show jsToNumDigits (String.mk ['0', '5']) = some 5 from rfl)
        (by decide) (by decide)]
      exact (getDateVariations_mem3 "May" hd1 hd2 hy3 hy4
        (by decide) (by decide)
        (show MONTHS.findIdx? (fun m => lowerData m = ("May" : String).data.map Char.toLower) =
          some 4 from by decide)).1
    · rw [ddmmyyyyToDDMMMYY_eq (digit_facts hd1).2.1 (digit_facts hd2).2.1
        (show ('0' : Char) ≠ '-' from by decide) (show ('5' : Char) ≠ '-' from by decide)
        (digit_facts hy3).2.1 (digit_facts hy4).2.1
        (show jsToNumDigits (String.mk ['0', '5']) = some 5 from rfl)
        (by decide) (by decide),
        ddmmyyyyToISO_eq (digit_facts hd1).2.1 (digit_facts hd2).2.1
        (show ('0' : Char) ≠ '-' from by decide) (show ('5' : Char) ≠ '-' from by decide)
        (digit_facts hy3).2.1 (digit_facts hy4).2.1]
      exact (getDateVariations_mem3 "May" hd1 hd2 hy3 hy4
        (by decide) (by decide)
        (show MONTHS.findIdx? (fun m => lowerData m = ("May" : String).data.map Char.toLower) =
          some 4 from by decide)).2
  · refine ⟨isValidDDMMYYYY_mk hd1 hd2 (by decide) (by decide) hy3 hy4, ?_, ?_⟩
    · rw [ddmmyyyyToDDMMMYY_eq (digit_facts hd1).2.1 (digit_facts hd2).2.1
        (show ('0' : Char) ≠ '-' from by decide) (show ('6' : Char) ≠ '-' from by decide)
        (digit_facts hy3).2.1 (digit_facts hy4).2.1
        (show jsToNumDigits (String.mk ['0', '6']) = some 6 from rfl)
        (by decide) (by decide)]
      exact (getDateVariations_mem3 "Jun" hd1 hd2 hy3 hy4
        (by decide) (by decide)
        (show MONTHS.findIdx? (fun m => lowerData m = ("Jun" : String).data.map Char.toLower) =
          some 5 from by decide)).1
    · rw [ddmmyyyyToDDMMMYY_eq (digit_facts hd1).2.1 (digit_facts hd2).2.1
        (show ('0' : Char) ≠ '-' from by decide) (show ('6' : Char) ≠ '-' from by decide)
        (digit_facts hy3).2.1 (digit_facts hy4).2.1
        (show jsToNumDigits (String.mk ['0', '6']) = some 6 from rfl)
        (by decide) (by decide),
        ddmmyyyyToISO_eq (digit_facts hd1).2.1 (digit_facts hd2).2.1
        (show ('0' : Char) ≠ '-' from by decide) (show ('6' : Char) ≠ '-' from by decide)
        (digit_facts hy3).2.1 (digit_facts hy4).2.1]
      exact (getDateVariations_mem3 "Jun" hd1 hd2 hy3 hy4
        (by decide) (by decide)
        (show MONTHS.findIdx? (fun m => lowerData m = ("Jun" : String).data.map Char.toLower) =
          some 5 from by decide)).2
  · refine ⟨isValidDDMMYYYY_mk hd1 hd2 (by decide) (by decide) hy3 hy4, ?_, ?_⟩
    · rw [ddmmyyyyToDDMMMYY_eq (digit_facts hd1).2.1 (digit_facts hd2).2.1
        (show ('0' : Char) ≠ '-' from by decide) (show ('7' : Char) ≠ '-' from by decide)
        (digit_facts hy3).2.1 (digit_facts hy4).2.1
        (show jsToNumDigits (String.mk ['0', '7']) = some 7 from rfl)
        (by decide) (by decide)]
      exact (getDateVariations_mem3 "Jul" hd1 hd2 hy3 hy4
        (by decide) (by decide)
        (show MONTHS.findIdx? (fun m => lowerData m = ("Jul" : String).data.map Char.toLower) =
          some 6 from by decide)).1
    · rw [ddmmyyyyToDDMMMYY_eq (digit_facts hd1).2.1 (digit_facts hd2).2.1
        (show ('0' : Char) ≠ '-' from by decide) (show ('7' : Char) ≠ '-' from by decide)
        (digit_facts hy3).2.1 (digit_facts hy4).2.1
        (show jsToNumDigits (String.mk ['0', '7']) = some 7 from rfl)
        (by decide) (by decide),
        ddmmyyyyToISO_eq (digit_facts hd1).2.1 (digit_facts hd2).2.1
        (show ('0' : Char) ≠ '-' from by decide) (show ('7' : Char) ≠ '-' from by decide)
        (digit_facts hy3).2.1 (digit_facts hy4).2.1]
      exact (getDateVariations_mem3 "Jul" hd1 hd2 hy3 hy4
        (by decide) (by decide)
        (show MONTHS.findIdx? (fun m => lowerData m = ("Jul" : String).data.map Char.toLower) =
          some 6 from by decide)).2
  · refine ⟨isValidDDMMYYYY_mk hd1 hd2 (by decide) (by decide) hy3 hy4, ?_, ?_⟩
    · rw [ddmmyyyyToDDMMMYY_eq (digit_facts hd1).2.1 (digit_facts hd2).2.1
        (show ('0' : Char) ≠ '-' from by decide) (show ('8' : Char) ≠ '-' from by decide)
        (digit_facts hy3).2.1 (digit_facts hy4).2.1
        (show jsToNumDigits (String.mk ['0', '8']) = some 8 from rfl)
        (by decide) (by decide)]
      exact (getDateVariations_mem3 "Aug" hd1 hd2 hy3 hy4
        (by decide) (by decide)
        (show MONTHS.findIdx? (fun m => lowerData m = ("Aug" : String).data.map Char.toLower) =
          some 7 from by decide)).1
    · rw [ddmmyyyyToDDMMMYY_eq (digit_facts hd1).2.1 (digit_facts hd2).2.1
        (show ('0' : Char) ≠ '-' from by decide) (show ('8' : Char) ≠ '-' from by decide)
        (digit_facts hy3).2.1 (digit_facts hy4).2.1
        (show jsToNumDigits (String.mk ['0', '8']) = some 8 from rfl)
        (by decide) (by decide),
        ddmmyyyyToISO_eq (digit_facts hd1).2.1 (digit_facts hd2).2.1
        (show ('0' : Char) ≠ '-' from by decide) (show ('8' : Char) ≠ '-' from by decide)
        (digit_facts hy3).2.1 (digit_facts hy4).2.1]
      exact (getDateVariations_mem3 "Aug" hd1 hd2 hy3 hy4
        (by decide) (by decide)
        (show MONTHS.findIdx? (fun m => lowerData m = ("Aug" : String).data.map Char.toLower) =
          some 7 from by decide)).2
  · refine ⟨isValidDDMMYYYY_mk hd1 hd2 (by decide) (by decide) hy3 hy4, ?_, ?_⟩
    · rw [ddmmyyyyToDDMMMYY_eq (digit_facts hd1).2.1 (digit_facts hd2).2.1
        (show ('0' : Char) ≠ '-' from by decide) (show ('9' : Char) ≠ '-' from by decide)
        (digit_facts hy3).2.1 (digit_facts hy4).2.1
        (show jsToNumDigits (String.mk ['0', '9']) = some 9 from rfl)
        (by decide) (by decide)]
      exact (getDateVariations_mem3 "Sep" hd1 hd2 hy3 hy4
        (by decide) (by decide)
        (show MONTHS.findIdx? (fun m => lowerData m = ("Sep" : String).data.map Char.toLower) =
          some 8 from by decide)).1
    · rw [ddmmyyyyToDDMMMYY_eq (digit_facts hd1).2.1 (digit_facts hd2).2.1
        (show ('0' : Char) ≠ '-' from by decide) (show ('9' : Char) ≠ '-' from by decide)
        (digit_facts hy3).2.1 (digit_facts hy4).2.1
        (show jsToNumDigits (String.mk ['0', '9']) = some 9 from rfl)
        (by decide) (by decide),
        ddmmyyyyToISO_eq (digit_facts hd1).2.1 (digit_facts hd2).2.1
        (show ('0' : Char) ≠ '-' from by decide) (show ('9' : Char) ≠ '-' from by decide)
        (digit_facts hy3).2.1 (digit_facts hy4).2.1]
      exact (getDateVariations_mem3 "Sep" hd1 hd2 hy3 hy4
        (by decide) (by decide)
        (show MONTHS.findIdx? (fun m => lowerData m = ("Sep" : String).data.map Char.toLower) =
          some 8 from by decide)).2
  · refine ⟨isValidDDMMYYYY_mk hd1 hd2 (by decide) (by decide) hy3 hy4, ?_, ?_⟩
    · rw [ddmmyyyyToDDMMMYY_eq (digit_facts hd1).2.1 (digit_facts hd2).2.1
        (show ('1' : Char) ≠ '-' from by decide) (show ('0' : Char) ≠ '-' from by decide)
        (digit_facts hy3).2.1 (digit_facts hy4).2.1
        (show jsToNumDigits (String.mk ['1', '0']) = some 10 from rfl)
        (by decide) (by decide)]
      exact (getDateVariations_mem3 "Oct" hd1 hd2 hy3 hy4
        (by decide) (by decide)
        (show MONTHS.findIdx? (fun m => lowerData m = ("Oct" : String).data.map Char.toLower) =
          some 9 from by decide)).1
    · rw [ddmmyyyyToDDMMMYY_eq (digit_facts hd1).2.1 (digit_facts hd2).2.1
        (show ('1' : Char) ≠ '-' from by decide) (show ('0' : Char) ≠ '-' from by decide)
        (digit_facts hy3).2.1 (digit_facts hy4).2.1
        (show jsToNumDigits (String.mk ['1', '0']) = some 10 from rfl)
        (by decide) (by decide),
        ddmmyyyyToISO_eq (digit_facts hd1).2.1 (digit_facts hd2).2.1
        (show ('1' : Char) ≠ '-' from by decide) (show ('0' : Char) ≠ '-' from by decide)
        (digit_facts hy3).2.1 (digit_facts hy4).2.1]
      exact (getDateVariations_mem3 "Oct" hd1 hd2 hy3 hy4
        (by decide) (by decide)
        (show MONTHS.findIdx? (fun m => lowerData m = ("Oct" : String).data.map Char.toLower) =
          some 9 from by decide)).2
  · refine ⟨isValidDDMMYYYY_mk hd1 hd2 (by decide) (by decide) hy3 hy4, ?_, ?_⟩
    · rw [ddmmyyyyToDDMMMYY_eq (digit_facts hd1).2.1 (digit_facts hd2).2.1
        (show ('1' : Char) ≠ '-' from by decide) (show ('1' : Char) ≠ '-' from by decide)
        (digit_facts hy3).2.1 (digit_facts hy4).2.1
        (show jsToNumDigits (String.mk ['1', '1']) = some 11 from rfl)
        (by decide) (by decide)]
      exact (getDateVariations_mem3 "Nov" hd1 hd2 hy3 hy4
        (by decide) (by decide)
        (show MONTHS.findIdx? (fun m => lowerData m = ("Nov" : String).data.map Char.toLower) =
          some 10 from by decide)).1
    · rw [ddmmyyyyToDDMMMYY_eq (digit_facts hd1).2.1 (digit_facts hd2).2.1
        (show ('1' : Char) ≠ '-' from by decide) (show ('1' : Char) ≠ '-' from by decide)
        (digit_facts hy3).2.1 (digit_facts hy4).2.1
        (show jsToNumDigits (String.mk ['1', '1']) = some 11 from rfl)
        (by decide) (by decide),
        ddmmyyyyToISO_eq (digit_facts hd1).2.1 (digit_facts hd2).2.1
        (show ('1' : Char) ≠ '-' from by decide) (show ('1' : Char) ≠ '-' from by decide)
        (digit_facts hy3).2.1 (digit_facts hy4).2.1]
      exact (getDateVariations_mem3 "Nov" hd1 hd2 hy3 hy4
        (by decide) (by decide)
        (show MONTHS.findIdx? (fun m => lowerData m = ("Nov" : String).data.map Char.toLower) =
          some 10 from by decide)).2
  · refine ⟨isValidDDMMYYYY_mk hd1 hd2 (by decide) (by decide) hy3 hy4, ?_, ?_⟩
    · rw [ddmmyyyyToDDMMMYY_eq (digit_facts hd1).2.1 (digit_facts hd2).2.1
        (show ('1' : Char) ≠ '-' from by decide) (show ('2' : Char) ≠ '-' from by decide)
        (digit_facts hy3).2.1 (digit_facts hy4).2.1
        (show jsToNumDigits (String.mk ['1', '2']) = some 12 from rfl)
        (by decide) (by decide)]
      exact (getDateVariations_mem3 "Dec" hd1 hd2 hy3 hy4
        (by decide) (by decide)
        (show MONTHS.findIdx? (fun m => lowerData m = ("Dec" : String).data.map Char.toLower) =
          some 11 from by decide)).1
    · rw [ddmmyyyyToDDMMMYY_eq (digit_facts hd1).2.1 (digit_facts hd2).2.1
        (show ('1' : Char) ≠ '-' from by decide) (show ('2' : Char) ≠ '-' from by decide)
        (digit_facts hy3).2.1 (digit_facts hy4).2.1
        (show jsToNumDigits (String.mk ['1', '2']) = some 12 from rfl)
        (by decide) (by decide),
        ddmmyyyyToISO_eq (digit_facts hd1).2.1 (digit_facts hd2).2.1
        (show ('1' : Char) ≠ '-' from by decide) (show ('2' : Char) ≠ '-' from by decide)
        (digit_facts hy3).2.1 (digit_facts hy4).2.1]
      exact (getDateVariations_mem3 "Dec" hd1 hd2 hy3 hy4
        (by decide) (by decide)
        (show MONTHS.findIdx? (fun m => lowerData m = ("Dec" : String).data.map Char.toLower) =
          some 11 from by decide)).2

/-- C8 witness: the round trip at the concrete date 05-07-2024. -/
theorem c8_date_roundtrip_witness :
    isValidDDMMYYYY (String.mk ['0', '5', '-', '0', '7', '-', '2', '0', '2', '4']) = true ∧
    String.mk ['0', '5', '-', '0', '7', '-', '2', '0', '2', '4'] ∈
      getDateVariations
        (ddmmyyyyToDDMMMYY (String.mk ['0', '5', '-', '0', '7', '-', '2', '0', '2', '4'])) ∧
    ddmmyyyyToISO (String.mk ['0', '5', '-', '0', '7', '-', '2', '0', '2', '4']) ∈
      getDateVariations
        (ddmmyyyyToDDMMMYY (String.mk ['0', '5', '-', '0', '7', '-', '2', '0', '2', '4'])) :=
  c8_date_roundtrip '0' '5' '0' '7' '2' '4' (by decide) (by decide) (by decide) (by decide)
    (Or.inr (Or.inr (Or.inr (Or.inr (Or.inr (Or.inr (Or.inl ⟨rfl, rfl⟩)))))))

theorem checkRange_mem {x : String} {v : JSV} {mn mx : ℚ} {fld : String} {az : Bool}
    (h : x ∈ checkRange v mn mx fld az) :
    x = fld ++ " must be a number" ∨ x = fld ++ " cannot be 0" ∨
    x = fld ++ " must be between " ++ ratToStr mn ++ " and " ++ ratToStr mx := by
  unfold checkRange at h
  split at h
  · simp at h
  · simp at h
  · split at h
    · exact Or.inl (List.mem_singleton.mp h)
    · split at h
      · exact Or.inr (Or.inl (List.mem_singleton.mp h))
      · split at h
        · exact Or.inr (Or.inr (List.mem_singleton.mp h))
        · simp at h
    · exact Or.inr (Or.inr (List.mem_singleton.mp h))
    · exact Or.inr (Or.inr (List.mem_singleton.mp h))

theorem moduleTemp_mem {x : String} {v : JSV} (h : x ∈ moduleTempDefects v) :
    x = "Module Temperature must be a number" ∨ x = "Module Temperature cannot be 0" ∨
    x = "Module Temperature cannot be negative" ∨ x = "Module Temperature must be ≤ 100°C" := by
  unfold moduleTempDefects at h
  split at h
  · simp at h
  · simp at h
  · split at h
    · exact Or.inl (List.mem_singleton.mp h)
    · split at h
      · exact Or.inr (Or.inl (List.mem_singleton.mp h))
      · split at h
        · exact Or.inr (Or.inr (Or.inl (List.mem_singleton.mp h)))
        · split at h
          · exact Or.inr (Or.inr (Or.inr (List.mem_singleton.mp h)))
          · simp at h
    · exact Or.inr (Or.inr (Or.inr (List.mem_singleton.mp h)))
    · exact Or.inr (Or.inr (Or.inl (List.mem_singleton.mp h)))

theorem dup_mem_iff (seen : List String) (r : Row) :
    dupMsg ∈ wRowDefects seen r ↔
      ∃ k, wPairKey r = some k ∧ seen.contains k = true := by
  simp only [wRowDefects]
  constructor
  · intro h
    simp only [List.mem_append] at h
    rcases h with ((((((((((hA | hB) | hC) | h1) | h2) | h3) | h4) | hM) | h5) | h6) | h7) | h8
    · split at hA
      · exact absurd (List.mem_singleton.mp hA) (by decide)
      · split at hA
        · exact absurd (List.mem_singleton.mp hA) (by decide)
        · simp at hA
    · split at hB
      · exact absurd (List.mem_singleton.mp hB) (by decide)
      · split at hB
        · exact absurd (List.mem_singleton.mp hB) (by decide)
        · simp at hB
    · split at hC
      · rename_i k heq
        split at hC
        · rename_i hcont
          exact ⟨k, heq, hcont⟩
        · simp at hC
      · simp at hC
    · rcases checkRange_mem h1 with h' | h' | h' <;> exact absurd h' (by decide)
    · rcases checkRange_mem h2 with h' | h' | h' <;> exact absurd h' (by decide)
    · rcases checkRange_mem h3 with h' | h' | h' <;> exact absurd h' (by decide)
    · rcases checkRange_mem h4 with h' | h' | h' <;> exact absurd h' (by decide)
    · rcases moduleTemp_mem hM with h' | h' | h' | h' <;> exact absurd h' (by decide)
    · rcases checkRange_mem h5 with h' | h' | h' <;> exact absurd h' (by decide)
    · rcases checkRange_mem h6 with h' | h' | h' <;> exact absurd h' (by decide)
    · rcases checkRange_mem h7 with h' | h' | h' <;> exact absurd h' (by decide)
    · rcases checkRange_mem h8 with h' | h' | h' <;> exact absurd h' (by decide)
  · rintro ⟨k, hk, hcont⟩
    apply List.mem_append_left
    apply List.mem_append_left
    apply List.mem_append_left
    apply List.mem_append_left
    apply List.mem_append_left
    apply List.mem_append_left
    apply List.mem_append_left
    apply List.mem_append_left
    apply List.mem_append_left
    apply List.mem_append_right
    rw [hk]
    dsimp only
    rw [if_pos hcont]
    exact List.mem_singleton.mpr rfl

def c3badrow : Row :=
  [("Date", JSV.str "2025-01-01" NumV.nan), ("Time", JSV.str "09:00" NumV.nan)]

def c3vrow : Row :=
  [("Date", JSV.str "01-Jan-25" NumV.nan), ("Time", JSV.str "09:00" NumV.nan)]

/-- C3 counterexample: two identical rows whose (unnormalizable) date makes the
pair invalid are NOT flagged as duplicates — both occurrences get only the
format defect, so the unrestricted claim fails. -/
theorem c3_invalid_dup_not_flagged_cex :
    (weatherValidate [c3badrow, c3badrow]).errors =
      [(2, ["Invalid Date format (expected DD-MMM-YY, e.g., 01-Dec-24)"]),
       (3, ["Invalid Date format (expected DD-MMM-YY, e.g., 01-Dec-24)"])] ∧
    ∀ p ∈ (weatherValidate [c3badrow, c3badrow]).errors, dupMsg ∉ p.2 := by
  constructor
  · decide
  · decide

/-- C3 (amended): the defect list recorded for row `i` (when nonempty, at row
number `i + 2`) contains the duplicate defect iff the row's normalized
(date, time) pair is present and valid and some earlier row of the batch
yields the same valid pair key; rows with no valid pair key are never
duplicate-flagged, and the defect string is exactly
"Duplicate Date & Time combination". -/
theorem c3_duplicate_flagging (rows : List Row) (i : Nat) (hi : i < rows.length) :
    (wRowDefects ((rows.take i).filterMap wPairKey) (rows.get ⟨i, hi⟩) = [] ∨
      (i + 2, wRowDefects ((rows.take i).filterMap wPairKey) (rows.get ⟨i, hi⟩)) ∈
        (weatherValidate rows).errors) ∧
    (dupMsg ∈ wRowDefects ((rows.take i).filterMap wPairKey) (rows.get ⟨i, hi⟩) ↔
      ∃ k, wPairKey (rows.get ⟨i, hi⟩) = some k ∧
        ∃ r' ∈ rows.take i, wPairKey r' = some k) ∧
    (wPairKey (rows.get ⟨i, hi⟩) = none →
      dupMsg ∉ wRowDefects ((rows.take i).filterMap wPairKey) (rows.get ⟨i, hi⟩)) ∧
    dupMsg = "Duplicate Date & Time combination" := by
  refine ⟨?_, ?_, ?_, rfl⟩
  · have h := errsGo_entry wRowDefects wPairKey rows 0 [] i hi
    rw [List.nil_append, Nat.zero_add] at h
    rw [weatherValidate_errors_go]
    exact h
  · rw [dup_mem_iff]
    constructor
    · rintro ⟨k, hk, hcont⟩
      rw [contains_iff] at hcont
      obtain ⟨r', hr', hk'⟩ := List.mem_filterMap.mp hcont
      exact ⟨k, hk, r', hr', hk'⟩
    · rintro ⟨k, hk, r', hr', hk'⟩
      exact ⟨k, hk, contains_iff.mpr (List.mem_filterMap.mpr ⟨r', hr', hk'⟩)⟩
  · intro hnone hmem
    obtain ⟨k, hk, _⟩ := (dup_mem_iff _ _).mp hmem
    rw [hnone] at hk
    exact Option.noConfusion hk

/-- C3 witness: two identical valid rows — the second occurrence of the
(01-Jan-25, 09:00) pair carries the duplicate defect. -/
theorem c3_duplicate_flagging_witness :
    dupMsg ∈ wRowDefects (([c3vrow, c3vrow].take 1).filterMap wPairKey)
      ([c3vrow, c3vrow].get ⟨1, by decide⟩) :=
  (c3_duplicate_flagging [c3vrow, c3vrow] 1 (by decide)).2.1.mpr
    ⟨"01-Jan-25_09:00", by decide, c3vrow, by decide, by decide⟩

end SolarIngest
